import Mathlib

/-!
Verification development for the Obsidian Todoist-sync plugin.

The TypeScript sources are shallowly embedded: pure string manipulation is
translated directly, the Obsidian vault is modelled as a finite association
list from paths to nodes, JavaScript `Map` objects are modelled as
association lists with JavaScript `Map` update semantics (`set` replaces an
existing key in place, otherwise appends; `delete` removes the key), and
asynchronous per-entity processing is modelled as a sequential fold in
source order.  External I/O (the Todoist API, the file-system adapter) is
modelled by explicit parameters describing its outcome.
-/

set_option maxHeartbeats 1000000

namespace TodoistSync

/-! ## JavaScript string primitives -/

/-- Model of `String.prototype.startsWith`. -/
def jsStartsWith (s pre : String) : Bool :=
  pre.data.isPrefixOf s.data

/-- Model of `str.replace(pat, rep)` for a plain-string pattern: replace the
leftmost occurrence of `pat` (if any) by `rep`, on character lists. -/
def replaceFirstL (pat rep : List Char) : List Char → List Char
  | [] => if pat.isPrefixOf ([] : List Char) then rep else []
  | c :: t =>
    if pat.isPrefixOf (c :: t) then rep ++ (c :: t).drop pat.length
    else c :: replaceFirstL pat rep t

/-- Model of `str.replace(pat, rep)` (first occurrence only, as in
JavaScript when the pattern is a string). -/
def jsReplaceFirst (s pat rep : String) : String :=
  ⟨replaceFirstL pat.data rep.data s.data⟩

theorem replaceFirstL_of_isPrefixOf (pat rep : List Char) (s : List Char)
    (h : pat.isPrefixOf s) :
    replaceFirstL pat rep s = rep ++ s.drop pat.length := by
  cases s with
  | nil => simp [replaceFirstL, h]
  | cons c t => simp [replaceFirstL, h]

theorem jsReplaceFirst_append (pat rep rest : String) :
    jsReplaceFirst (pat ++ rest) pat rep = rep ++ rest := by
  have hpre : pat.data.isPrefixOf (pat ++ rest).data := by
    rw [List.isPrefixOf_iff_prefix]
    exact ⟨rest.data, by simp [String.data_append]⟩
  unfold jsReplaceFirst
  rw [replaceFirstL_of_isPrefixOf _ _ _ hpre]
  apply String.ext
  simp [String.data_append, List.drop_left]

theorem jsStartsWith_append (pre rest : String) :
    jsStartsWith (pre ++ rest) pre = true := by
  unfold jsStartsWith
  rw [List.isPrefixOf_iff_prefix]
  exact ⟨rest.data, by simp [String.data_append]⟩

/-! ## Path helpers (model of Obsidian path utilities) -/

/-- Split a character list on `/`. -/
def slashSplit : List Char → List (List Char)
  | [] => [[]]
  | c :: t =>
    if c = '/' then [] :: slashSplit t
    else
      match slashSplit t with
      | [] => [[c]]
      | h :: r => (c :: h) :: r

theorem slashSplit_ne_nil (l : List Char) : slashSplit l ≠ [] := by
  cases l with
  | nil => simp [slashSplit]
  | cons c t =>
    simp only [slashSplit]
    split
    · simp
    · cases h : slashSplit t <;> simp

theorem slashSplit_append_slash (l : List Char) :
    slashSplit (l ++ ['/']) = slashSplit l ++ [[]] := by
  induction l with
  | nil => simp [slashSplit]
  | cons c t ih =>
    by_cases hc : c = '/'
    · simp [slashSplit, hc, ih]
    · cases h : slashSplit t with
      | nil => exact absurd h (slashSplit_ne_nil t)
      | cons a r =>
        simp only [List.cons_append, slashSplit, hc, if_false]
        have ih' : slashSplit (t.append ['/']) = slashSplit t ++ [[]] := ih
        rw [ih', h]
        simp

/-- Join path components with `/`. -/
def slashJoin : List (List Char) → List Char
  | [] => []
  | [c] => c
  | c :: r => c ++ '/' :: slashJoin r

/-- Model of Obsidian's `normalizePath`: backslashes become slashes, runs of
slashes collapse, leading and trailing slashes are removed. -/
def normalizePath (s : String) : String :=
  ⟨slashJoin (((slashSplit (s.data.map fun c => if c = '\\' then '/' else c))).filter
    (fun c => c ≠ []))⟩

theorem normalizePath_append_slash (s : String) :
    normalizePath (s ++ "/") = normalizePath s := by
  unfold normalizePath
  have h1 : (s ++ "/").data = s.data ++ ['/'] := String.data_append s "/"
  rw [h1, List.map_append]
  have h2 : (['/'].map fun c => if c = '\\' then '/' else c) = ['/'] := by decide
  rw [h2, slashSplit_append_slash]
  simp

/-- Last path component (model of `path.split('/').pop()` and of an Obsidian
file or folder `name`). -/
def lastComponent (p : String) : String :=
  ⟨(p.data.reverse.takeWhile (fun c => c ≠ '/')).reverse⟩

/-- Parent path of a path containing a slash (model of `TFile.parent.path`
and of `expectedPath.substring(0, expectedPath.lastIndexOf('/'))`); `none`
when the path has no slash. -/
def dirName (p : String) : Option String :=
  if p.data.contains '/' then
    some ⟨((p.data.reverse.dropWhile (fun c => c ≠ '/')).drop 1).reverse⟩
  else none

/-- Base name of a file name, without the final extension (model of
`TFile.basename`). -/
def baseNameNoExt (name : String) : String :=
  if name.data.contains '.' then
    ⟨((name.data.reverse.dropWhile (fun c => c ≠ '.')).drop 1).reverse⟩
  else name

/-- Extension of a file name (model of `TFile.extension`). -/
def extOf (name : String) : String :=
  if name.data.contains '.' then
    ⟨(name.data.reverse.takeWhile (fun c => c ≠ '.')).reverse⟩
  else ""

/-- JavaScript whitespace, as far as the names at hand can contain it. -/
def isJsSpace (c : Char) : Bool :=
  c = ' ' ∨ c = '\t' ∨ c = '\n' ∨ c = '\r'

/-- Model of `String.prototype.trim`: strip whitespace from both ends. -/
def jsTrim (s : String) : String :=
  ⟨((s.data.dropWhile isJsSpace).reverse.dropWhile isJsSpace).reverse⟩

/-- From `src/src/sync/syncEngine.ts` (`sanitizeName`): replace each of the
characters `\ / : * ? " < > |` by an underscore, then trim. -/
def sanitizeName (name : String) : String :=
  jsTrim (String.mk (name.data.map fun c =>
    if c = '\\' ∨ c = '/' ∨ c = ':' ∨ c = '*' ∨ c = '?' ∨ c = '"' ∨ c = '<' ∨
        c = '>' ∨ c = '|' then '_' else c))

/-! ## JavaScript `Map` model -/

/-- Lookup in an association list (model of `Map.get`). -/
def mapGet {α : Type} : List (String × α) → String → Option α
  | [], _ => none
  | (k, v) :: t, key => if k = key then some v else mapGet t key

/-- Model of `Map.set`: replace the value of an existing key in place,
otherwise append the binding. -/
def mapSet {α : Type} : List (String × α) → String → α → List (String × α)
  | [], key, v => [(key, v)]
  | (k, w) :: t, key, v =>
    if k = key then (k, v) :: t else (k, w) :: mapSet t key v

/-- Model of `Map.delete`. -/
def mapDelete {α : Type} : List (String × α) → String → List (String × α)
  | [], _ => []
  | (k, v) :: t, key =>
    if k = key then mapDelete t key else (k, v) :: mapDelete t key

/-- Model of `Map.has`. -/
def mapHas {α : Type} (m : List (String × α)) (key : String) : Bool :=
  (mapGet m key).isSome

@[simp] theorem mapGet_nil {α : Type} (k : String) :
    mapGet ([] : List (String × α)) k = none := rfl

@[simp] theorem mapGet_cons {α : Type} (k key : String) (v : α) (t : List (String × α)) :
    mapGet ((k, v) :: t) key = if k = key then some v else mapGet t key := rfl

@[simp] theorem mapGet_mapSet_self {α : Type} (m : List (String × α)) (k : String) (v : α) :
    mapGet (mapSet m k v) k = some v := by
  induction m with
  | nil => simp [mapSet]
  | cons e t ih =>
    obtain ⟨k', w⟩ := e
    by_cases h : k' = k <;> simp [mapSet, h, ih]

theorem mapGet_mapSet_ne {α : Type} (m : List (String × α)) (k k' : String) (v : α)
    (h : k ≠ k') : mapGet (mapSet m k v) k' = mapGet m k' := by
  induction m with
  | nil => simp [mapSet, h]
  | cons e t ih =>
    obtain ⟨k₀, w⟩ := e
    by_cases h0 : k₀ = k
    · subst h0
      simp [mapSet, h]
    · simp only [mapSet, h0, if_false, mapGet_cons]
      by_cases h1 : k₀ = k' <;> simp [h1, ih]

@[simp] theorem mapGet_mapDelete_self {α : Type} (m : List (String × α)) (k : String) :
    mapGet (mapDelete m k) k = none := by
  induction m with
  | nil => simp [mapDelete]
  | cons e t ih =>
    obtain ⟨k', w⟩ := e
    by_cases h : k' = k <;> simp [mapDelete, h, ih]

theorem mapGet_mapDelete_ne {α : Type} (m : List (String × α)) (k k' : String)
    (h : k ≠ k') : mapGet (mapDelete m k) k' = mapGet m k' := by
  induction m with
  | nil => simp [mapDelete]
  | cons e t ih =>
    obtain ⟨k₀, w⟩ := e
    by_cases h0 : k₀ = k
    · subst h0
      simp [mapDelete, h, ih]
    · by_cases h1 : k₀ = k' <;> simp [mapDelete, h0, h1, ih, Ne.symm h]

/-! ## Data model (interfaces from `src/src/todoist.ts` and `src/unnamed/part_002`) -/

/-- Todoist project (`Project` in `src/src/todoist.ts`).  The optional
`is_deleted` / `is_archived` flags are booleans whose absence is falsy. -/
structure Project where
  id : String
  name : String
  is_deleted : Bool
  is_archived : Bool
deriving DecidableEq, Repr

/-- Todoist section (`Section` in `src/src/todoist.ts`). -/
structure Section where
  id : String
  name : String
  project_id : String
  is_deleted : Bool
  is_archived : Bool
deriving DecidableEq, Repr

/-- Due-date object (`Due` in `src/src/todoist.ts`). -/
structure Due where
  date : String
  string : String
  is_recurring : Bool
deriving DecidableEq, Repr

/-- Todoist task (`Item` in `src/src/todoist.ts`). -/
structure Item where
  id : String
  content : String
  description : String
  project_id : String
  section_id : Option String
  priority : Int
  due : Option Due
  labels : List String
  url : String
  parent_id : Option String
  is_completed : Bool
  completed_at : Option String
  created_at : String
  is_deleted : Bool
deriving DecidableEq, Repr

/-- Plugin settings (`TodoistSyncSettings`, defaults in `src/unnamed/part_002`). -/
structure TodoistSyncSettings where
  apiKey : String
  baseFolder : String
  archiveFolder : String
  trashFolder : String
  doneFolder : String
deriving DecidableEq, Repr

/-! ## C3: escalation of an incremental pass to a full sync -/

/-- From `src/src/sync/syncEngine.ts` lines 85-92: before fetching, an
incremental pass escalates to a full sync, and the Identity Index caches are
rebuilt by `populateAllCaches`, exactly when the pass is an initial load and
at least one per-kind file cache is empty.  Returns the effective
`isFullSync` flag paired with whether `populateAllCaches` ran before the
fetch. -/
def escalateToFullSync (isFullSync isInitialLoad : Bool)
    (projectCacheSize sectionCacheSize taskCacheSize : Nat) : Bool × Bool :=
  if !isFullSync && isInitialLoad &&
      (projectCacheSize == 0 || sectionCacheSize == 0 || taskCacheSize == 0) then
    (true, true)
  else
    (isFullSync, false)

/-! ## C5: ordering of the sync-cursor write within a pass -/

/-- Observable steps of one sync pass, at the granularity of claim C5. -/
inductive SyncStep where
  | fetchRequest
  | writeSyncToken
  | mergeSnapshot
  | processEntities
  | cleanupSweep
deriving DecidableEq, Repr

/-- Outcome of the external fetch inside `syncTodoist`
(`src/src/todoist.ts` lines 175-247): whether the HTTP call succeeded,
whether the response carried a `sync_token`, and whether writing the token
file through the vault adapter succeeded. -/
structure FetchOutcome where
  httpOk : Bool
  tokenInResponse : Bool
  tokenWriteOk : Bool
deriving DecidableEq, Repr

/-- Event trace of `syncTodoist` (`src/src/todoist.ts` lines 175-247) paired
with whether it returns data: the new sync token is written immediately
after a successful response, and a failed token write makes the whole fetch
fail (`return null`). -/
def syncTodoistEvents (o : FetchOutcome) : List SyncStep × Bool :=
  if !o.httpOk then ([.fetchRequest], false)
  else if o.tokenInResponse then
    if o.tokenWriteOk then ([.fetchRequest, .writeSyncToken], true)
    else ([.fetchRequest], false)
  else ([.fetchRequest], true)

/-- Event trace of one pass of `syncOrFullSyncTasks`
(`src/src/sync/syncEngine.ts` lines 94-873): fetch (which itself persists
the token, see `syncTodoistEvents`), then snapshot merge, then per-entity
processing, then — on a full pass — the cleanup sweep.  Per-entity local
errors (`syncErrorOccurred`) are logged but do not change which steps
run. -/
def syncPassEvents (isFullSync : Bool) (o : FetchOutcome)
    (perEntityErrors : Bool) : List SyncStep :=
  let fetchPhase := syncTodoistEvents o
  let _ := perEntityErrors
  if !fetchPhase.2 then fetchPhase.1
  else
    fetchPhase.1 ++ [.mergeSnapshot, .processEntities] ++
      (if isFullSync then [.cleanupSweep] else [])

/-! ## C6: snapshot-cache merge -/

/-- From `src/src/utils.ts` (`mergeById`): build a JavaScript `Map` from the
cache keyed by id, overwrite or add every delta item, and return the values
list. -/
def mergeById {α : Type} (getId : α → String) (cache : List α) (delta : List α) :
    List α :=
  if delta.length = 0 then cache
  else
    let cacheMap := cache.foldl (fun m item => mapSet m (getId item) item) []
    let merged := delta.foldl (fun m item => mapSet m (getId item) item) cacheMap
    merged.map Prod.snd

/-- From `src/src/sync/syncEngine.ts` lines 121-158 (the per-kind pattern):
a full pass replaces the API snapshot cache outright with the fetched list;
an incremental pass merges a non-empty fetched delta into it by id. -/
def updateApiCache {α : Type} (getId : α → String) (isFullSync : Bool)
    (cache fetched : List α) : List α :=
  if isFullSync then fetched
  else if 0 < fetched.length then mergeById getId cache fetched
  else cache

/-- Lookup of an entity by id in a snapshot-cache list
(`cache.find(t => String(t.id) === id)`). -/
def findById {α : Type} (getId : α → String) (l : List α) (id : String) : Option α :=
  l.find? (fun x => getId x == id)

theorem mapGet_foldl_mapSet {α : Type} (getId : α → String) (l : List α)
    (m : List (String × α)) (k : String) :
    mapGet (l.foldl (fun m it => mapSet m (getId it) it) m) k =
      match l.reverse.find? (fun x => getId x == k) with
      | some e => some e
      | none => mapGet m k := by
  induction l generalizing m with
  | nil => simp
  | cons a t ih =>
    simp only [List.foldl_cons, List.reverse_cons, ih]
    rw [List.find?_append]
    cases h : t.reverse.find? (fun x => getId x == k) with
    | some e => simp
    | none =>
      simp only [Option.none_or]
      by_cases hk : getId a = k
      · subst hk
        simp [List.find?]
      · have hb : (getId a == k) = false := beq_eq_false_iff_ne.mpr hk
        simp [List.find?, hb, mapGet_mapSet_ne _ _ _ _ hk]

theorem find?_eq_some_of_nodup {α : Type} (getId : α → String) (l : List α)
    (e : α) (hnd : (l.map getId).Nodup) (he : e ∈ l) :
    l.find? (fun x => getId x == getId e) = some e := by
  induction l with
  | nil => cases he
  | cons a t ih =>
    simp only [List.map_cons, List.nodup_cons] at hnd
    rcases List.mem_cons.mp he with rfl | het
    · rw [List.find?_cons_of_pos _ (by simp)]
    · have hne : getId a ≠ getId e := by
        intro hgc
        exact hnd.1 (hgc ▸ List.mem_map_of_mem getId het)
      rw [List.find?_cons_of_neg _ (by simp [hne])]
      exact ih hnd.2 het

theorem find?_eq_none_of_not_mem {α : Type} (getId : α → String) (l : List α)
    (k : String) (hk : k ∉ l.map getId) :
    l.find? (fun x => getId x == k) = none := by
  rw [List.find?_eq_none]
  intro x hx
  simp only [beq_iff_eq]
  intro hxk
  exact hk (hxk ▸ List.mem_map_of_mem getId hx)

theorem mapSet_mem {α : Type} : (m : List (String × α)) → (k : String) → (v : α) →
    (e : String × α) → e ∈ mapSet m k v → e ∈ m ∨ e = (k, v)
  | [], k, v, e, he => by simpa [mapSet] using he
  | (k₀, w) :: t, k, v, e, he => by
    by_cases h : k₀ = k
    · subst h
      simp only [mapSet, if_pos rfl] at he
      rcases List.mem_cons.mp he with h1 | h1
      · exact Or.inr h1
      · exact Or.inl (List.mem_cons_of_mem _ h1)
    · simp only [mapSet, if_neg h] at he
      rcases List.mem_cons.mp he with h1 | h1
      · exact Or.inl (by rw [h1]; exact List.mem_cons_self _ _)
      · rcases mapSet_mem t k v e h1 with h2 | h2
        · exact Or.inl (List.mem_cons_of_mem _ h2)
        · exact Or.inr h2

theorem foldl_mapSet_aligned {α : Type} (getId : α → String) (l : List α)
    (m : List (String × α)) (hm : ∀ e ∈ m, e.1 = getId e.2) :
    ∀ e ∈ l.foldl (fun m it => mapSet m (getId it) it) m, e.1 = getId e.2 := by
  induction l generalizing m with
  | nil => simpa using hm
  | cons a t ih =>
    simp only [List.foldl_cons]
    refine ih _ ?_
    intro e he
    rcases mapSet_mem _ _ _ _ he with h1 | h1
    · exact hm e h1
    · subst h1; rfl

theorem find?_map_snd_eq_mapGet {α : Type} (getId : α → String)
    (m : List (String × α)) (hm : ∀ e ∈ m, e.1 = getId e.2) (k : String) :
    (m.map Prod.snd).find? (fun x => getId x == k) = mapGet m k := by
  induction m with
  | nil => simp
  | cons a t ih =>
    obtain ⟨k₀, v₀⟩ := a
    have hk₀ : k₀ = getId v₀ := hm (k₀, v₀) (List.mem_cons_self _ _)
    have ht : ∀ e ∈ t, e.1 = getId e.2 := fun e he => hm e (List.mem_cons_of_mem _ he)
    by_cases h : getId v₀ = k
    · rw [List.map_cons, List.find?_cons_of_pos _ (by simp [h])]
      simp [hk₀, h]
    · rw [List.map_cons, List.find?_cons_of_neg _ (by simp [h])]
      rw [ih ht]
      simp [hk₀, h]

/-- First C6 merge property: every id in the delta maps to the delta entity. -/
theorem mergeById_mem {α : Type} (getId : α → String) (cache delta : List α)
    (e : α) (hnd : (delta.map getId).Nodup) (he : e ∈ delta) :
    findById getId (mergeById getId cache delta) (getId e) = some e := by
  have hdne : delta.length ≠ 0 := by
    intro h
    rw [List.length_eq_zero] at h
    subst h
    cases he
  unfold mergeById findById
  rw [if_neg hdne]
  rw [find?_map_snd_eq_mapGet getId _
    (foldl_mapSet_aligned getId delta _
      (foldl_mapSet_aligned getId cache [] (by simp)))]
  rw [mapGet_foldl_mapSet]
  rw [find?_eq_some_of_nodup getId delta.reverse e (by simpa using hnd)
    (List.mem_reverse.mpr he)]

/-- Second C6 merge property: ids not in the delta keep their cache entry. -/
theorem mergeById_not_mem {α : Type} (getId : α → String) (cache delta : List α)
    (k : String) (hnc : (cache.map getId).Nodup) (hk : k ∉ delta.map getId) :
    findById getId (mergeById getId cache delta) k = findById getId cache k := by
  by_cases hde : delta.length = 0
  · unfold mergeById
    rw [if_pos hde]
  · unfold mergeById findById
    rw [if_neg hde]
    rw [find?_map_snd_eq_mapGet getId _
      (foldl_mapSet_aligned getId delta _
        (foldl_mapSet_aligned getId cache [] (by simp)))]
    rw [mapGet_foldl_mapSet]
    rw [find?_eq_none_of_not_mem getId delta.reverse k (by simpa using hk)]
    rw [mapGet_foldl_mapSet]
    cases hf : cache.reverse.find? (fun x => getId x == k) with
    | some e =>
      have hmem := List.mem_of_find?_eq_some hf
      have hpe := List.find?_some hf
      simp only [beq_iff_eq] at hpe
      rw [← hpe]
      exact (find?_eq_some_of_nodup getId cache e hnc
        (List.mem_reverse.mp hmem)).symm
    | none =>
      rw [mapGet_nil]
      have : ∀ x ∈ cache, ¬ ((fun x => getId x == k) x = true) := by
        intro x hx
        exact List.find?_eq_none.mp hf x (List.mem_reverse.mpr hx)
      exact (List.find?_eq_none.mpr this).symm

/-! ## Vault model

The Obsidian vault is modelled as an association list from normalized paths
to nodes.  A file node carries the one piece of frontmatter the claims
consult (`completed`).  Vault operations that can only fail through
file-system faults are modelled as reliable; operations whose failure is a
logic-level collision (create at an occupied path, rename onto an occupied
path) return `Option`. -/

/-- A vault node: a file (with its `completed` frontmatter flag) or a folder. -/
inductive VNode where
  | file (completedMeta : Bool)
  | folder
deriving DecidableEq, Repr

/-- The vault: path-keyed association list. -/
abbrev Vault := List (String × VNode)

/-- Model of `vault.getAbstractFileByPath`. -/
def vaultGet (v : Vault) (p : String) : Option VNode := mapGet v p

/-- Whether a file sits at `p`. -/
def isFileAt (v : Vault) (p : String) : Bool :=
  match vaultGet v p with
  | some (.file _) => true
  | _ => false

/-- Whether a folder sits at `p`. -/
def isFolderAt (v : Vault) (p : String) : Bool :=
  match vaultGet v p with
  | some .folder => true
  | _ => false

/-- Model of `vault.createFolder`: fails when the path is occupied. -/
def createFolder (v : Vault) (p : String) : Option Vault :=
  if (vaultGet v p).isSome then none else some (mapSet v p .folder)

/-- Model of `vault.create(path, "---\n---\n")`: a fresh file with empty
frontmatter; fails when the path is occupied. -/
def createFile (v : Vault) (p : String) : Option Vault :=
  if (vaultGet v p).isSome then none else some (mapSet v p (.file false))

/-- Move the node at `src` (and, for folders, its whole subtree) to `dest`. -/
def moveSubtree (src dest : String) (v : Vault) : Vault :=
  v.map fun e =>
    if e.1 = src then (dest, e.2)
    else if jsStartsWith e.1 (src ++ "/") then
      (dest ++ String.drop e.1 (String.length src), e.2)
    else e

/-- Model of `fileManager.renameFile` at a checked destination: fails when
the source is missing or the destination is occupied. -/
def renameEntry (v : Vault) (src dest : String) : Option Vault :=
  if (vaultGet v src).isNone then none
  else if (vaultGet v dest).isSome then none
  else some (moveSubtree src dest v)

/-- Model of `vault.trash` on a path: the node and its subtree leave the
active vault tree. -/
def trashSubtree (p : String) (v : Vault) : Vault :=
  v.filter fun e => !(e.1 == p || jsStartsWith e.1 (p ++ "/"))

/-- Set the `completed` frontmatter flag of the file at `p` (the part of a
`processFrontMatter` mutation that the claims consult). -/
def setCompletedMeta (v : Vault) (p : String) (b : Bool) : Vault :=
  v.map fun e =>
    match e.2 with
    | .file _ => if e.1 = p then (e.1, .file b) else e
    | .folder => e

/-! ## `moveFileToCustomLocation` (src/src/obsidian/fileManager.ts lines 10-39) -/

/-- Candidate number `k` of the name-conflict loop: candidate 0 is
`targetParentPath/fileName`, candidate `k ≥ 1` is
`targetParentPath/basename_k.extension`. -/
def conflictCandidate (targetParentPath fileName : String) (k : Nat) : String :=
  if k = 0 then normalizePath (targetParentPath ++ "/" ++ fileName)
  else
    normalizePath (targetParentPath ++ "/" ++ baseNameNoExt fileName ++ "_" ++
      toString k ++ "." ++ extOf fileName)

/-- The `while (vault.getAbstractFileByPath(targetPath))` loop: first
conflict-free candidate from index `k`, searched with the given fuel.  On a
real vault the loop always terminates, because the numeric suffixes
eventually name a fresh path; the fuel only makes the model structurally
recursive. -/
def firstFreeCandidate (v : Vault) (targetParentPath fileName : String) :
    Nat → Nat → Option String
  | _, 0 => none
  | k, fuel + 1 =>
    let cand := conflictCandidate targetParentPath fileName k
    if (vaultGet v cand).isSome then
      firstFreeCandidate v targetParentPath fileName (k + 1) fuel
    else some cand

/-- Resolved target path of `moveFileToCustomLocation`.  The fallback value
for an exhausted search is never reached on a real vault (the suffixed
candidate names are pairwise distinct strings, so some candidate among the
first `|v| + 1` is free). -/
def resolveMoveTarget (v : Vault) (targetParentPath fileName : String) : String :=
  (firstFreeCandidate v targetParentPath fileName 0 (v.length + 1)).getD
    (conflictCandidate targetParentPath fileName (v.length + 1))

/-- Model of `moveFileToCustomLocation`: ensure the target parent folder
exists, pick the first conflict-free candidate name, and rename the file
there.  The TypeScript function returns `undefined`, so callers that test
its result (`if (newPath)`) always see a falsy value. -/
def moveFileToCustomLocation (v : Vault) (filePath targetParentPath : String) : Vault :=
  let v1 := if (vaultGet v targetParentPath).isSome then v
    else mapSet v targetParentPath .folder
  let targetPath := resolveMoveTarget v1 targetParentPath (lastComponent filePath)
  moveSubtree filePath targetPath v1

/-! ## `handleMove` (src/src/obsidian/fileManager.ts lines 74-191) -/

/-- What one `handleMove` call did, for the frame claims. -/
inductive HMAction where
  | movedFolder (src dest : String)
  | trashedFolderInvalidMove (src : String)
  | abortedBaseFolder
  | skippedFolderDestExists
  | skippedFolderDestIsFile
  | trashedFolderMoveFailed (src : String)
  | folderMoveFailedBase
  | movedFile (src dest : String)
  | skippedFileDestIsFolder
  | fileRenameFailed
  | noTarget
deriving DecidableEq, Repr

/-- Model of `handleMove`: move a folder (preferred) or a file into
`destinationParentPath`, with the critical safety check on the folder
branch.  `folderToMove` and `fileToMove` are the paths of the respective
vault objects (`null` = `none`).  A rename onto an occupied path fails, as
`fileManager.renameFile` does; the `itemType` argument of the source is
logging only and is omitted. -/
def handleMove (settings : TodoistSyncSettings) (v : Vault)
    (folderToMove fileToMove : Option String) (destinationParentPath : String) :
    Vault × HMAction :=
  let normalizedBaseFolderPath := normalizePath settings.baseFolder
  let v := if (vaultGet v destinationParentPath).isSome then v
    else mapSet v destinationParentPath .folder
  match folderToMove with
  | some folderPath =>
    let destinationPath :=
      normalizePath (destinationParentPath ++ "/" ++ lastComponent folderPath)
    if jsStartsWith destinationPath (normalizePath (folderPath ++ "/")) ||
        destinationPath == folderPath then
      if folderPath ≠ normalizedBaseFolderPath then
        (trashSubtree folderPath v, .trashedFolderInvalidMove folderPath)
      else (v, .abortedBaseFolder)
    else
      match vaultGet v destinationPath with
      | some .folder => (v, .skippedFolderDestExists)
      | some (.file _) => (v, .skippedFolderDestIsFile)
      | none =>
        match renameEntry v folderPath destinationPath with
        | some v' => (v', .movedFolder folderPath destinationPath)
        | none =>
          if folderPath ≠ normalizedBaseFolderPath then
            (trashSubtree folderPath v, .trashedFolderMoveFailed folderPath)
          else (v, .folderMoveFailedBase)
  | none =>
    match fileToMove with
    | some filePath =>
      let destinationPath :=
        normalizePath (destinationParentPath ++ "/" ++ lastComponent filePath)
      match vaultGet v destinationPath with
      | some .folder => (v, .skippedFileDestIsFolder)
      | some (.file _) =>
        match renameEntry v filePath destinationPath with
        | some v' => (v', .movedFile filePath destinationPath)
        | none => (v, .fileRenameFailed)
      | none =>
        match renameEntry v filePath destinationPath with
        | some v' => (v', .movedFile filePath destinationPath)
        | none => (v, .fileRenameFailed)
    | none => (v, .noTarget)

/-! ## Command queue (src/unnamed/part_001, current `CommandManager`) -/

/-- Arguments of a queued command (`ItemArgs` / `ItemCompleteArgs` in
`src/src/todoist.ts`); a field absent from the JavaScript object is `none`. -/
structure CmdArgs where
  id : Option String
  content : Option String
  description : Option String
  priority : Option Int
  due_string : Option String
  project_id : Option String
  section_id : Option String
  completed_at : Option String
deriving DecidableEq, Repr

/-- `CmdArgs` with no field set. -/
def CmdArgs.empty : CmdArgs :=
  ⟨none, none, none, none, none, none, none, none⟩

/-- A queued Sync-API command (`TodoistCommand` in `src/src/todoist.ts`). -/
structure TodoistCommand where
  type : String
  uuid : String
  temp_id : Option String
  args : CmdArgs
deriving DecidableEq, Repr

/-- JavaScript object spread `{ ...older, ...newer }` on command arguments:
a field present on the newer object wins, a field present only on the older
object persists. -/
def spreadArgs (older newer : CmdArgs) : CmdArgs where
  id := newer.id.or older.id
  content := newer.content.or older.content
  description := newer.description.or older.description
  priority := newer.priority.or older.priority
  due_string := newer.due_string.or older.due_string
  project_id := newer.project_id.or older.project_id
  section_id := newer.section_id.or older.section_id
  completed_at := newer.completed_at.or older.completed_at

/-- The key a command is queued under:
`command.args.id ? String(command.args.id) : command.uuid` (an empty id
string is falsy in JavaScript, so it falls back to the uuid). -/
def commandKey (c : TodoistCommand) : String :=
  match c.args.id with
  | some i => if i = "" then c.uuid else i
  | none => c.uuid

/-- From `src/unnamed/part_001` lines 171-200
(`CommandManager.queueTodoistCommand`): enqueue onto the pending map,
merging by precedence when the key is already pending.  Two `item_update`s
merge field-by-field into the existing command; `item_complete` overwrites
a pending `item_update` or `item_uncomplete`; `item_uncomplete` overwrites a
pending `item_update`; any other conflict lets the new command overwrite. -/
def queueTodoistCommand (pending : List (String × TodoistCommand))
    (command : TodoistCommand) : List (String × TodoistCommand) :=
  let key := commandKey command
  match mapGet pending key with
  | some existingCommand =>
    if existingCommand.type = "item_update" ∧ command.type = "item_update" then
      mapSet pending key
        { existingCommand with args := spreadArgs existingCommand.args command.args }
    else if command.type = "item_complete" ∧
        (existingCommand.type = "item_update" ∨
         existingCommand.type = "item_uncomplete") then
      mapSet pending key command
    else if command.type = "item_uncomplete" ∧
        existingCommand.type = "item_update" then
      mapSet pending key command
    else mapSet pending key command
  | none => mapSet pending key command

/-! ## Change detector (src/src/sync/eventHandlers.ts lines 109-196) -/

/-- Frontmatter of a task document as the metadata cache reports it: an
absent YAML key is `none`.  (`completed` models the `=== true` / `=== false`
comparisons of the source; a key that is absent or holds a non-boolean value
satisfies neither.) -/
structure TaskFrontmatter where
  type : Option String
  completed : Option Bool
  content : Option String
  description : Option String
  priority : Option Int
  due_string : Option String
deriving DecidableEq, Repr

/-- The content the document currently carries: `frontmatter.content`, or
the file's base name when that is undefined, null or blank (lines 140-143). -/
def currentContentInObsidian (newFrontmatter : TaskFrontmatter)
    (basename : String) : String :=
  match newFrontmatter.content with
  | none => basename
  | some s => if jsTrim s = "" then basename else s

/-- The `content` field of the update intent (lines 145-149): set when the
current content differs from the cached task. -/
def contentField (cachedTask : Item) (newFrontmatter : TaskFrontmatter)
    (basename : String) : Option String :=
  if currentContentInObsidian newFrontmatter basename ≠ cachedTask.content then
    some (currentContentInObsidian newFrontmatter basename)
  else none

/-- The `description` field of the update intent (lines 151-156). -/
def descriptionField (cachedTask : Item) (newFrontmatter : TaskFrontmatter) :
    Option String :=
  match newFrontmatter.description with
  | some d => if d ≠ cachedTask.description then some d else none
  | none => none

/-- The `priority` field of the update intent (lines 158-169): a differing
priority is sent only within the valid range 1-4; out of range it is
rejected with a warning. -/
def priorityField (cachedTask : Item) (newFrontmatter : TaskFrontmatter) :
    Option Int :=
  match newFrontmatter.priority with
  | some p =>
    if p ≠ cachedTask.priority then
      if 1 ≤ p ∧ p ≤ 4 then some p else none
    else none
  | none => none

/-- The `due_string` field of the update intent (lines 171-179): compared
against `cachedTask.due?.string ?? null`. -/
def dueStringField (cachedTask : Item) (newFrontmatter : TaskFrontmatter) :
    Option String :=
  match newFrontmatter.due_string with
  | some ds =>
    match cachedTask.due with
    | some due => if ds ≠ due.string then some ds else none
    | none => some ds
  | none => none

/-- Core of `handleMetadataChange` (`src/src/sync/eventHandlers.ts` lines
109-196), after the guards (markdown file, id found in the task file cache,
task found in the snapshot cache, frontmatter of type `task`).  `now` stands
for `new Date().toISOString()` and `uuid` for `generateUUID()`.  Returns the
commands queued for this notification, in order. -/
def handleMetadataChange (cachedTask : Item) (newFrontmatter : TaskFrontmatter)
    (basename : String) (now uuid : String) : List TodoistCommand :=
  let wasCompletedInCache := cachedTask.is_completed
  let isNowCompletedInFrontmatter := newFrontmatter.completed = some true
  if isNowCompletedInFrontmatter ∧ ¬ wasCompletedInCache then
    [{ type := "item_complete", uuid := uuid, temp_id := none,
       args := { CmdArgs.empty with
                   id := some cachedTask.id
                   completed_at := some now } }]
  else if ¬ isNowCompletedInFrontmatter ∧ wasCompletedInCache ∧
      newFrontmatter.completed = some false then
    [{ type := "item_uncomplete", uuid := uuid, temp_id := none,
       args := { CmdArgs.empty with id := some cachedTask.id } }]
  else
    let changed := (contentField cachedTask newFrontmatter basename).isSome ∨
      (descriptionField cachedTask newFrontmatter).isSome ∨
      (priorityField cachedTask newFrontmatter).isSome ∨
      (dueStringField cachedTask newFrontmatter).isSome
    if changed then
      [{ type := "item_update", uuid := uuid, temp_id := none,
         args := { CmdArgs.empty with
                     id := some cachedTask.id
                     content := contentField cachedTask newFrontmatter basename
                     description := descriptionField cachedTask newFrontmatter
                     priority := priorityField cachedTask newFrontmatter
                     due_string := dueStringField cachedTask newFrontmatter } }]
    else []

/-! ## `processPendingCommands` (src/unnamed/part_001, lines 216-390) -/

/-- Per-command status in the Sync-API response (`sync_status`). -/
inductive CmdStatus where
  | ok
  | errorStatus (code : Int) (message : String)
deriving DecidableEq, Repr

/-- What `postTodoistCommands` returns to `processPendingCommands`. -/
structure PostResult where
  success : Bool
  syncStatus : Option (List (String × CmdStatus))
  tempIdMapping : Option (List (String × String))
deriving DecidableEq, Repr

/-- JavaScript truthiness of an optional string (`undefined`, `null` and
`""` are falsy). -/
def jsTruthyStr (o : Option String) : Bool :=
  match o with
  | some s => s ≠ ""
  | none => false

/-- `String(command.args.id)`: an undefined id stringifies to
`"undefined"`. -/
def jsStringOfOpt (o : Option String) : String := o.getD "undefined"

/-- Mutable state touched by the command manager. -/
structure CmdMgrState where
  vault : Vault
  taskFileCache : List (String × String)
  cachedTasks : List Item
deriving DecidableEq, Repr

/-- Update the first cached task with the given id (model of
`cachedTasks.find(...)` followed by in-place mutation). -/
def updateFirstItem : List Item → String → (Item → Item) → List Item
  | [], _, _ => []
  | t :: r, id, f => if t.id = id then f t :: r else t :: updateFirstItem r id f

/-- The cache patch a confirmed `item_complete` applies
(lines 300-304 of the current `CommandManager`). -/
def applyCompleteToCache (args : CmdArgs) (now : String) (t : Item) : Item :=
  let stamp := match args.completed_at with
    | some s => if s ≠ "" then s else now
    | none => now
  { t with is_completed := true, completed_at := some stamp }

/-- The cache patch a confirmed `item_update` applies
(lines 307-325 of the current `CommandManager`). -/
def applyUpdateToCache (args : CmdArgs) (t : Item) : Item :=
  let t := match args.content with
    | some c => { t with content := c }
    | none => t
  let t := match args.due_string with
    | some ds =>
      match t.due with
      | none => { t with due := some { date := "", string := ds, is_recurring := false } }
      | some d => { t with due := some { d with string := ds } }
    | none => t
  let t := match args.priority with
    | some p => { t with priority := p }
    | none => t
  let t := match args.project_id with
    | some pid => { t with project_id := pid }
    | none => t
  match args.section_id with
  | some sid => { t with section_id := some sid }
  | none => t

/-- Whether `apiResult.syncStatus[cmd.uuid] === "ok"`. -/
def statusOk (r : PostResult) (uuid : String) : Bool :=
  match r.syncStatus with
  | some statuses => mapGet statuses uuid == some .ok
  | none => false

/-- The cache-update pass over the batch, run only when
`apiResult.success` (lines 274-327): skip commands whose status is not
`"ok"` (except `item_add`, whose success shows in `temp_id_mapping`),
remap `item_add` temp ids, and patch the snapshot cache. -/
def applyApiSuccess (st : CmdMgrState) (commands : List TodoistCommand)
    (r : PostResult) (now : String) : CmdMgrState :=
  commands.foldl
    (fun st command =>
      let commandSuccess := statusOk r command.uuid
      if ¬ commandSuccess ∧ command.type ≠ "item_add" then st
      else
        let taskId := jsStringOfOpt command.args.id
        let idAndCache :=
          if command.type = "item_add" then
            match command.temp_id with
            | some tmp =>
              match r.tempIdMapping with
              | some mapping =>
                match mapGet mapping tmp with
                | some realId =>
                  let cache :=
                    match mapGet st.taskFileCache tmp with
                    | some tempFilePath =>
                      mapDelete (mapSet st.taskFileCache realId tempFilePath) tmp
                    | none => st.taskFileCache
                  (realId, cache)
                | none => (taskId, st.taskFileCache)
              | none => (taskId, st.taskFileCache)
            | none => (taskId, st.taskFileCache)
          else (taskId, st.taskFileCache)
        let realTaskId := idAndCache.1
        let st := { st with taskFileCache := idAndCache.2 }
        if command.type = "item_complete" then
          let patched := updateFirstItem st.cachedTasks realTaskId
            (applyCompleteToCache command.args now)
          { st with cachedTasks := patched }
        else if command.type = "item_update" then
          let patched := updateFirstItem st.cachedTasks realTaskId
            (applyUpdateToCache command.args)
          { st with cachedTasks := patched }
        else st)
    st

/-- One entry of `postApiFileOps`: the command and the file's path at the
time the batch was assembled. -/
structure PostApiFileOp where
  command : TodoistCommand
  originalFile : String
deriving DecidableEq, Repr

/-- Assembly of `postApiFileOps` (lines 236-259): an `item_complete`, or an
`item_update` that names a project or section, whose task has a cached path
that resolves to a file. -/
def collectPostApiFileOps (st : CmdMgrState) (commands : List TodoistCommand) :
    List PostApiFileOp :=
  commands.filterMap fun command =>
    if command.type = "item_complete" ∨
        (command.type = "item_update" ∧
          (jsTruthyStr command.args.project_id ∨
           jsTruthyStr command.args.section_id)) then
      match mapGet st.taskFileCache (jsStringOfOpt command.args.id) with
      | some filePath =>
        if isFileAt st.vault filePath then
          some { command := command, originalFile := filePath }
        else none
      | none => none
    else none

/-- The post-API file-operation loop (lines 342-383).  It runs over
`postApiFileOps` unconditionally — also when the API call failed or threw.
For an `item_complete` op it rewrites the file's frontmatter
(`completed: true`, …) and moves the file into the Done folder;
`moveFileToCustomLocation` returns `undefined`, so the following
`if (newPath)` is never taken and the task file cache keeps the old path.
`item_update` moves are a TODO in the source and do nothing. -/
def runPostApiFileOps (settings : TodoistSyncSettings) (st : CmdMgrState)
    (ops : List PostApiFileOp) : CmdMgrState :=
  ops.foldl
    (fun st op =>
      if op.command.type = "item_complete" then
        let doneFolderPath :=
          normalizePath (settings.baseFolder ++ "/" ++ settings.doneFolder)
        let v := setCompletedMeta st.vault op.originalFile true
        let v := moveFileToCustomLocation v op.originalFile doneFolderPath
        { st with vault := v }
      else st)
    st

/-- Model of `CommandManager.processPendingCommands`
(`src/unnamed/part_001` lines 216-390) for one drained batch.  `apiResult`
is what the awaited `postTodoistCommands` produced: `none` models a thrown
error (caught by the surrounding try/catch), `some r` its returned value.
Cache updates run only on `r.success`; the post-API file operations run
unconditionally afterwards.  Failed batches are not re-queued. -/
def processPendingCommands (settings : TodoistSyncSettings) (st : CmdMgrState)
    (commandsToProcess : List TodoistCommand) (apiResult : Option PostResult)
    (now : String) : CmdMgrState :=
  let ops := collectPostApiFileOps st commandsToProcess
  let st1 :=
    match apiResult with
    | some r => if r.success then applyApiSuccess st commandsToProcess r now else st
    | none => st
  runPostApiFileOps settings st1 ops

/-! ## Full-sync pass (src/src/sync/syncEngine.ts, `syncOrFullSyncTasks`)

The pass is modelled for `isFullSync = true`, where the per-entity
delta-membership guards (`isFullSync || idsInDelta.has(...)`) are satisfied
and the snapshot caches are the fetched lists.  The asynchronous task loop
(`Promise.allSettled` over `tasksToProcess.map`) is modelled as a sequential
fold in list order.  Frontmatter writes other than the `completed` flag are
not represented in the vault model; per-entity exceptions (`catch` blocks)
leave the state the entity had mutated so far, exactly as the source's
`try`/`catch` does. -/

/-- Identity-Index caches and vault threaded through one pass. -/
structure SyncState where
  vault : Vault
  projectFileCache : List (String × String)
  sectionFileCache : List (String × String)
  taskFileCache : List (String × String)
deriving DecidableEq, Repr

/-- `new Map(list.map(x => [x.id, x]))`. -/
def jsMapOfById {α : Type} (getId : α → String) (l : List α) : List (String × α) :=
  l.foldl (fun m x => mapSet m (getId x) x) []

/-- Locating the folder and file to relocate for a deleted or archived
project or section (lines 218-245 / 450-484): a cached path pointing at a
file yields that file with its parent folder; one pointing at a folder
yields the folder with its index file `folder/<name>.md` when present. -/
def locateForRemoval (v : Vault) (cachedPath : Option String) :
    Option String × Option String :=
  match cachedPath with
  | none => (none, none)
  | some cp =>
    match vaultGet v cp with
    | some (.file _) =>
      (match dirName cp with
       | some parent => if isFolderAt v parent then some parent else none
       | none => none,
       some cp)
    | some .folder =>
      let potentialIndexPath :=
        normalizePath (cp ++ "/" ++ lastComponent cp ++ ".md")
      (some cp,
       if isFileAt v potentialIndexPath then some potentialIndexPath else none)
    | none => (none, none)

/-- Shared tail of the active-project branch (lines 365-424): resolve the
file through the cache, else the expected path; rename it to the expected
path when needed, or create it; update cache and frontmatter. -/
def updateOrCreateProjectFile (st : SyncState) (v : Vault)
    (projectIdStr sanitizedProjectName expectedProjectFilePath : String) :
    SyncState :=
  let currentCachedPath := mapGet st.projectFileCache projectIdStr
  let viaCache := currentCachedPath.bind fun cp =>
    (vaultGet v cp).map fun n => (cp, n)
  let abstractFile := match viaCache with
    | some x => some x
    | none => (vaultGet v expectedProjectFilePath).map
        fun n => (expectedProjectFilePath, n)
  match abstractFile with
  | some (q, .file _) =>
    if q ≠ expectedProjectFilePath then
      match renameEntry v q expectedProjectFilePath with
      | some v2 =>
        { st with
            vault := v2
            projectFileCache := mapSet st.projectFileCache projectIdStr expectedProjectFilePath }
      | none => { st with vault := v }
    else
      { st with
          vault := v
          projectFileCache := mapSet st.projectFileCache projectIdStr q }
  | some (_, .folder) =>
    match createFile v expectedProjectFilePath with
    | some v2 =>
      { st with
          vault := v2
          projectFileCache := mapSet st.projectFileCache projectIdStr expectedProjectFilePath }
    | none => { st with vault := v }
  | none =>
    if sanitizedProjectName = "" then { st with vault := v }
    else
      match createFile v expectedProjectFilePath with
      | some v2 =>
        { st with
            vault := v2
            projectFileCache := mapSet st.projectFileCache projectIdStr expectedProjectFilePath }
      | none => { st with vault := v }

/-- One project of the full-sync project loop (lines 189-430). -/
def processProjectFull (settings : TodoistSyncSettings) (st : SyncState)
    (project : Project) : SyncState :=
  let baseFolderPath := normalizePath settings.baseFolder
  let trashFolderPath :=
    normalizePath (baseFolderPath ++ "/" ++ settings.trashFolder)
  let archiveFolderPath :=
    normalizePath (baseFolderPath ++ "/" ++ settings.archiveFolder)
  let projectIdStr := project.id
  let sanitizedProjectName := sanitizeName project.name
  let expectedProjectFolderPath :=
    normalizePath (baseFolderPath ++ "/" ++ sanitizedProjectName)
  let expectedProjectFilePath :=
    normalizePath (expectedProjectFolderPath ++ "/" ++ sanitizedProjectName ++ ".md")
  let cachedProjectPath := mapGet st.projectFileCache projectIdStr
  if project.is_deleted then
    let located := locateForRemoval st.vault cachedProjectPath
    let v := if located.1.isSome ∨ located.2.isSome then
        (handleMove settings st.vault located.1 located.2 trashFolderPath).1
      else st.vault
    { st with
        vault := v
        projectFileCache := mapDelete st.projectFileCache projectIdStr }
  else if project.is_archived then
    let located := locateForRemoval st.vault cachedProjectPath
    let v := if located.1.isSome ∨ located.2.isSome then
        (handleMove settings st.vault located.1 located.2 archiveFolderPath).1
      else st.vault
    { st with
        vault := v
        projectFileCache := mapDelete st.projectFileCache projectIdStr }
  else
    match vaultGet st.vault expectedProjectFolderPath with
    | some .folder =>
      updateOrCreateProjectFile st st.vault projectIdStr sanitizedProjectName
        expectedProjectFilePath
    | some (.file _) => st
    | none =>
      if sanitizedProjectName = "" then st
      else
        match createFolder st.vault expectedProjectFolderPath with
        | some v =>
          updateOrCreateProjectFile st v projectIdStr sanitizedProjectName
            expectedProjectFilePath
        | none => st

/-- Shared tail of the active-section branch (step 5, lines 617-659):
resolve the file through the cache, else the expected path; rename, update
or create it (sections have no empty-name guard at creation). -/
def updateOrCreateSectionFile (st : SyncState) (v : Vault)
    (sectionIdStr expectedSectionFilePath : String) : SyncState :=
  let currentCachedPath := mapGet st.sectionFileCache sectionIdStr
  let viaCache := currentCachedPath.bind fun cp =>
    (vaultGet v cp).map fun n => (cp, n)
  let file := match viaCache with
    | some x => some x
    | none => (vaultGet v expectedSectionFilePath).map
        fun n => (expectedSectionFilePath, n)
  match file with
  | some (q, .file _) =>
    if q ≠ expectedSectionFilePath then
      match renameEntry v q expectedSectionFilePath with
      | some v2 =>
        { st with
            vault := v2
            sectionFileCache := mapSet st.sectionFileCache sectionIdStr expectedSectionFilePath }
      | none => { st with vault := v }
    else
      { st with
          vault := v
          sectionFileCache := mapSet st.sectionFileCache sectionIdStr q }
  | some (_, .folder) =>
    match createFile v expectedSectionFilePath with
    | some v2 =>
      { st with
          vault := v2
          sectionFileCache := mapSet st.sectionFileCache sectionIdStr expectedSectionFilePath }
    | none => { st with vault := v }
  | none =>
    match createFile v expectedSectionFilePath with
    | some v2 =>
      { st with
          vault := v2
          sectionFileCache := mapSet st.sectionFileCache sectionIdStr expectedSectionFilePath }
    | none => { st with vault := v }

/-- One section of the full-sync section loop (lines 432-665). -/
def processSectionFull (settings : TodoistSyncSettings)
    (projectMap : List (String × Project)) (st : SyncState)
    (sec : Section) : SyncState :=
  let baseFolderPath := normalizePath settings.baseFolder
  let trashFolderPath :=
    normalizePath (baseFolderPath ++ "/" ++ settings.trashFolder)
  let archiveFolderPath :=
    normalizePath (baseFolderPath ++ "/" ++ settings.archiveFolder)
  let sectionIdStr := sec.id
  if sec.is_deleted then
    let cachedSectionPath := mapGet st.sectionFileCache sectionIdStr
    let located := locateForRemoval st.vault cachedSectionPath
    let v := if located.1.isSome ∨ located.2.isSome then
        (handleMove settings st.vault located.1 located.2 trashFolderPath).1
      else st.vault
    { st with
        vault := v
        sectionFileCache := mapDelete st.sectionFileCache sectionIdStr }
  else if sec.is_archived then
    let cachedSectionPath := mapGet st.sectionFileCache sectionIdStr
    let located := locateForRemoval st.vault cachedSectionPath
    let v := if located.1.isSome ∨ located.2.isSome then
        (handleMove settings st.vault located.1 located.2 archiveFolderPath).1
      else st.vault
    { st with
        vault := v
        sectionFileCache := mapDelete st.sectionFileCache sectionIdStr }
  else
    match mapGet projectMap sec.project_id with
    | none =>
      { st with sectionFileCache := mapDelete st.sectionFileCache sectionIdStr }
    | some parentProject =>
      if parentProject.is_deleted ∨ parentProject.is_archived then
        { st with sectionFileCache := mapDelete st.sectionFileCache sectionIdStr }
      else
        let sanitizedProjectName := sanitizeName parentProject.name
        let sanitizedSectionName := sanitizeName sec.name
        let expectedSectionFolderPath := normalizePath
          (baseFolderPath ++ "/" ++ sanitizedProjectName ++ "/" ++ sanitizedSectionName)
        let expectedSectionFilePath := normalizePath
          (expectedSectionFolderPath ++ "/" ++ sanitizedSectionName ++ ".md")
        if ¬ isFolderAt st.vault
            (normalizePath (baseFolderPath ++ "/" ++ sanitizedProjectName)) then st
        else
          let vOpt := if isFolderAt st.vault expectedSectionFolderPath then
              some st.vault
            else createFolder st.vault expectedSectionFolderPath
          match vOpt with
          | none => st
          | some v =>
            updateOrCreateSectionFile st v sectionIdStr expectedSectionFilePath

/-- Creation tail of the task loop (lines 798-810): ensure the parent
folder, create the document, write its frontmatter, index it. -/
def createNewTaskFile (st : SyncState) (parentFolderPath expectedPath
    taskIdStr : String) (completedFlag : Bool) : SyncState :=
  let vOpt := if ¬ isFolderAt st.vault parentFolderPath then
      createFolder st.vault parentFolderPath
    else some st.vault
  match vOpt with
  | none => st
  | some v1 =>
    match createFile v1 expectedPath with
    | none => { st with vault := v1 }
    | some v2 =>
      let v3 := setCompletedMeta v2 expectedPath completedFlag
      { st with
          vault := v3
          taskFileCache := mapSet st.taskFileCache taskIdStr expectedPath }

/-- The parent folder of an active task (lines 693-707): the active parent
project's folder, nested into the active parent section's folder, else the
base folder.  An empty `section_id` is falsy in JavaScript and looks up
nothing. -/
def taskParentFolderPath (settings : TodoistSyncSettings)
    (projectMap : List (String × Project)) (sectionMap : List (String × Section))
    (task : Item) : String :=
  let baseFolderPath := normalizePath settings.baseFolder
  let parentProject := mapGet projectMap task.project_id
  let parentSection := match task.section_id with
    | some sid => if sid = "" then none else mapGet sectionMap sid
    | none => none
  match parentProject with
  | some pp =>
    if ¬ pp.is_deleted ∧ ¬ pp.is_archived then
      let projectFolder :=
        normalizePath (baseFolderPath ++ "/" ++ sanitizeName pp.name)
      match parentSection with
      | some ps =>
        if ¬ ps.is_deleted ∧ ¬ ps.is_archived then
          normalizePath (projectFolder ++ "/" ++ sanitizeName ps.name)
        else projectFolder
      | none => projectFolder
    else baseFolderPath
  | none => baseFolderPath

/-- The canonical document path of a task (lines 709-710). -/
def taskExpectedPath (settings : TodoistSyncSettings)
    (projectMap : List (String × Project)) (sectionMap : List (String × Section))
    (task : Item) : String :=
  normalizePath (taskParentFolderPath settings projectMap sectionMap task ++
    "/" ++ sanitizeName task.content ++ ".md")

/-- One task of the full-sync task loop (lines 670-816). -/
def processTaskFull (settings : TodoistSyncSettings)
    (projectMap : List (String × Project)) (sectionMap : List (String × Section))
    (st : SyncState) (task : Item) : SyncState :=
  let baseFolderPath := normalizePath settings.baseFolder
  let trashFolderPath :=
    normalizePath (baseFolderPath ++ "/" ++ settings.trashFolder)
  let doneFolderPath :=
    normalizePath (baseFolderPath ++ "/" ++ settings.doneFolder)
  let taskIdStr := task.id
  let parentFolderPath := taskParentFolderPath settings projectMap sectionMap task
  let taskFilePath := taskExpectedPath settings projectMap sectionMap task
  let cachedTaskPath := mapGet st.taskFileCache taskIdStr
  let taskFile := cachedTaskPath.bind (vaultGet st.vault)
  if task.is_deleted then
    match cachedTaskPath, taskFile with
    | some cp, some (.file _) =>
      let v := moveFileToCustomLocation st.vault cp trashFolderPath
      { st with
          vault := v
          taskFileCache := mapDelete st.taskFileCache taskIdStr }
    | _, _ =>
      { st with taskFileCache := mapDelete st.taskFileCache taskIdStr }
  else if task.completed_at.isSome then
    match cachedTaskPath, taskFile with
    | some cp, some (.file _) =>
      let v := setCompletedMeta st.vault cp true
      let v := moveFileToCustomLocation v cp doneFolderPath
      { st with
          vault := v
          taskFileCache := mapDelete st.taskFileCache taskIdStr }
    | _, _ =>
      { st with taskFileCache := mapDelete st.taskFileCache taskIdStr }
  else
    let expectedPath := taskFilePath
    let taskAbstractFile := match mapGet st.taskFileCache taskIdStr with
      | some cp => (vaultGet st.vault cp).map fun n => (cp, n)
      | none => (vaultGet st.vault expectedPath).map fun n => (expectedPath, n)
    match taskAbstractFile with
    | some (q, .file _) =>
      if q ≠ expectedPath then
        let vOpt : Option Vault :=
          match dirName expectedPath with
          | some parentDir =>
            if (vaultGet st.vault parentDir).isNone then
              createFolder st.vault parentDir
            else some st.vault
          | none => some st.vault
        match vOpt with
        | none => st
        | some v1 =>
          match renameEntry v1 q expectedPath with
          | some v2 =>
            let v3 := setCompletedMeta v2 expectedPath task.completed_at.isSome
            { st with
                vault := v3
                taskFileCache := mapSet st.taskFileCache taskIdStr expectedPath }
          | none => { st with vault := v1 }
      else
        let v := setCompletedMeta st.vault q task.completed_at.isSome
        { st with
            vault := v
            taskFileCache := mapSet st.taskFileCache taskIdStr q }
    | some (_, .folder) =>
      createNewTaskFile st parentFolderPath expectedPath taskIdStr
        task.completed_at.isSome
    | none =>
      createNewTaskFile st parentFolderPath expectedPath taskIdStr
        task.completed_at.isSome

/-! ## Cleanup sweep (syncEngine.ts lines 822-873, fileManager.ts lines 232-325) -/

/-- What one `trashOrArchiveFileById` call did. -/
inductive CleanupAction where
  | movedToDone (id path target : String)
  | trashedFile (id path : String)
  | trashedEmptyFolder (id path : String)
  | skippedNonEmptyFolder (id path : String)
  | missing (id path : String)
deriving DecidableEq, Repr

/-- Direct children (paths) of a folder path in the vault. -/
def directChildren (v : Vault) (p : String) : List String :=
  (v.map Prod.fst).filter fun q =>
    jsStartsWith q (p ++ "/") && !((String.drop q (p.length + 1)).data.contains '/')

/-- Model of `trashOrArchiveFileById` (`src/src/obsidian/fileManager.ts`
lines 232-325): a task file whose `completed` frontmatter is `true` moves to
the Done folder under a conflict-free name; any other file is trashed (and
its parent folder too, when after the trash it matches the file's base name
and held only that file — `parentFolder.children` is read after the file was
trashed); a folder is trashed when empty (projects/sections); otherwise only
a warning.  The `finally` block always removes the id from its kind's cache. -/
def trashOrArchiveFileById (settings : TodoistSyncSettings) (st : SyncState)
    (id type filePath : String) : SyncState × CleanupAction :=
  let moved : SyncState × CleanupAction :=
    match vaultGet st.vault filePath with
    | some (.file completedMeta) =>
      if type = "task" ∧ completedMeta = true then
        let doneFolder :=
          normalizePath (settings.baseFolder ++ "/" ++ settings.doneFolder)
        let v1 := if (vaultGet st.vault doneFolder).isSome then st.vault
          else mapSet st.vault doneFolder .folder
        let target := resolveMoveTarget v1 doneFolder (lastComponent filePath)
        ({ st with vault := moveSubtree filePath target v1 },
         .movedToDone id filePath target)
      else
        let v1 := trashSubtree filePath st.vault
        let v2 :=
          match dirName filePath with
          | some parentPath =>
            if parentPath ≠ settings.baseFolder ∧
                (type = "project" ∨ type = "section") ∧
                lastComponent parentPath = baseNameNoExt (lastComponent filePath) ∧
                directChildren v1 parentPath = [filePath] then
              trashSubtree parentPath v1
            else v1
          | none => v1
        ({ st with vault := v2 }, .trashedFile id filePath)
    | some .folder =>
      if type = "project" ∨ type = "section" then
        if directChildren st.vault filePath = [] then
          ({ st with vault := trashSubtree filePath st.vault },
           .trashedEmptyFolder id filePath)
        else (st, .skippedNonEmptyFolder id filePath)
      else (st, .missing id filePath)
    | none => (st, .missing id filePath)
  let st1 := moved.1
  let st2 :=
    if type = "project" then
      { st1 with projectFileCache := mapDelete st1.projectFileCache id }
    else if type = "section" then
      { st1 with sectionFileCache := mapDelete st1.sectionFileCache id }
    else if type = "task" then
      { st1 with taskFileCache := mapDelete st1.taskFileCache id }
    else st1
  (st2, moved.2)

/-- The cleanup targets of a full pass (lines 838-868): Identity-Index
entries, per kind in projects-sections-tasks order, whose id is absent from
the fetched ids, read from the caches as the sweep starts. -/
def cleanupTargets (st : SyncState)
    (fetchedProjectIds fetchedSectionIds fetchedTaskIds : List String) :
    List (String × String × String) :=
  (st.projectFileCache.filterMap fun e =>
    if fetchedProjectIds.contains e.1 then none
    else some (e.1, "project", e.2)) ++
  (st.sectionFileCache.filterMap fun e =>
    if fetchedSectionIds.contains e.1 then none
    else some (e.1, "section", e.2)) ++
  (st.taskFileCache.filterMap fun e =>
    if fetchedTaskIds.contains e.1 then none
    else some (e.1, "task", e.2))

/-- Run the queued cleanups in order, logging each action. -/
def runCleanup (settings : TodoistSyncSettings) (st : SyncState)
    (targets : List (String × String × String)) :
    SyncState × List CleanupAction :=
  targets.foldl
    (fun acc tgt =>
      let r := trashOrArchiveFileById settings acc.1 tgt.1 tgt.2.1 tgt.2.2
      (r.1, acc.2 ++ [r.2]))
    (st, [])

/-- The fetched payload of a full sync. -/
structure FetchedData where
  projects : List Project
  sections : List Section
  tasks : List Item
deriving DecidableEq, Repr

/-- The processing phase of one full sync pass (`syncOrFullSyncTasks` with
`isFullSync = true`): ensure the base folder, then process projects,
sections and tasks; the merged snapshot caches are the fetched lists, and
the file caches of the input state stand for whatever `populateAllCaches`
rebuilt before processing (the theorems quantify over them). -/
def fullSyncProcessPhase (settings : TodoistSyncSettings) (fetched : FetchedData)
    (st0 : SyncState) : SyncState :=
  let baseFolderPath := normalizePath settings.baseFolder
  let st1 := if (vaultGet st0.vault baseFolderPath).isSome then st0
    else { st0 with vault := mapSet st0.vault baseFolderPath .folder }
  let projectMap := jsMapOfById Project.id fetched.projects
  let sectionMap := jsMapOfById Section.id fetched.sections
  let st2 := fetched.projects.foldl (processProjectFull settings) st1
  let st3 := fetched.sections.foldl (processSectionFull settings projectMap) st2
  fetched.tasks.foldl (processTaskFull settings projectMap sectionMap) st3

/-- The whole full pass: processing phase, then the cleanup sweep over the
Identity-Index entries absent from the fetched ids. -/
def fullSyncPass (settings : TodoistSyncSettings) (fetched : FetchedData)
    (st0 : SyncState) : SyncState × List CleanupAction :=
  let st4 := fullSyncProcessPhase settings fetched st0
  let targets := cleanupTargets st4 (fetched.projects.map Project.id)
    (fetched.sections.map Section.id) (fetched.tasks.map Item.id)
  runCleanup settings st4 targets

/-! ## Project-rename cascade (src/unnamed/part_000 lines 383-401) -/

/-- The cascade as a pure prefix-substitution over one Identity-Index cache:
an entry whose (truthy) path starts with `oldFolderPath ++ "/"` has the
first occurrence of `oldFolderPath` replaced by `newFolderPath`
(`path.replace(oldFolderPath, expectedProjectFolderPath)`); every other
entry is untouched. -/
def cascadeRenameCache (oldFolderPath newFolderPath : String)
    (cache : List (String × String)) : List (String × String) :=
  cache.map fun e =>
    if e.2 ≠ "" ∧ jsStartsWith e.2 (oldFolderPath ++ "/") then
      (e.1, jsReplaceFirst e.2 oldFolderPath newFolderPath)
    else e

/-- The cascade step over both dependent caches (sections, then tasks),
guarded by `oldFolderPath !== expectedProjectFolderPath`; the loops touch no
vault object. -/
def projectRenameCascade (oldFolderPath newFolderPath : String)
    (st : SyncState) : SyncState :=
  if oldFolderPath ≠ newFolderPath then
    { st with
        sectionFileCache :=
          cascadeRenameCache oldFolderPath newFolderPath st.sectionFileCache
        taskFileCache :=
          cascadeRenameCache oldFolderPath newFolderPath st.taskFileCache }
  else st

/-! # Claim theorems -/

/-! ## C3 -/

/-- C3 (counterexample): an incremental pass with every per-kind
Identity-Index cache empty is not escalated to a full sync when the pass is
not the initial load, refuting the claim's "regardless of any other
condition": the escalation also requires `isInitialLoad`. -/
theorem escalateToFullSync_counterexample :
    escalateToFullSync false false 0 0 0 = (false, false) ∧
    ¬ escalateToFullSync false false 0 0 0 = (true, true) := by
  decide

/-- C3 (amended): an incremental pass during the initial load with at least
one per-kind Identity-Index cache empty is escalated to a full sync, and
`populateAllCaches` rebuilds the Index before the fetch. -/
theorem escalateToFullSync_initial_load (p s t : Nat)
    (h : p = 0 ∨ s = 0 ∨ t = 0) :
    escalateToFullSync false true p s t = (true, true) := by
  rcases h with h | h | h <;> subst h <;> simp [escalateToFullSync]

/-- C3 witness: concrete empty project cache. -/
theorem escalateToFullSync_initial_load_witness :
    escalateToFullSync false true 0 5 7 = (true, true) :=
  escalateToFullSync_initial_load 0 5 7 (Or.inl rfl)

/-! ## C5 -/

/-- C5 (counterexample): in a fully successful full pass the sync token is
written immediately after the fetch — before the snapshot merge, the
per-entity processing and the cleanup sweep — so the cursor is persisted
before the pass's reconciliation steps complete, refuting the claim. -/
theorem syncCursor_written_before_reconciliation :
    syncPassEvents true ⟨true, true, true⟩ false =
      [.fetchRequest, .writeSyncToken, .mergeSnapshot, .processEntities,
       .cleanupSweep] ∧
    List.indexOf SyncStep.writeSyncToken
        (syncPassEvents true ⟨true, true, true⟩ false) <
      List.indexOf SyncStep.mergeSnapshot
        (syncPassEvents true ⟨true, true, true⟩ false) := by
  decide

/-- C5 (amended): the new SyncCursor is persisted exactly when the fetch
succeeds, the response carries a token and the token write succeeds (a
failed write fails the whole fetch); the step trace does not depend on
per-entity local errors; and on success the write happens directly after
the fetch request, before merge, per-entity processing and cleanup. -/
theorem syncPassEvents_spec (isFullSync : Bool) (o : FetchOutcome)
    (perEntityErrors : Bool) :
    (SyncStep.writeSyncToken ∈ syncPassEvents isFullSync o perEntityErrors ↔
       o.httpOk = true ∧ o.tokenInResponse = true ∧ o.tokenWriteOk = true) ∧
    syncPassEvents isFullSync o perEntityErrors =
      syncPassEvents isFullSync o false ∧
    (o.httpOk = true → o.tokenInResponse = true → o.tokenWriteOk = true →
      syncPassEvents isFullSync o perEntityErrors =
        [.fetchRequest, .writeSyncToken, .mergeSnapshot, .processEntities] ++
          (if isFullSync then [.cleanupSweep] else [])) := by
  obtain ⟨h1, h2, h3⟩ := o
  cases isFullSync <;> cases h1 <;> cases h2 <;> cases h3 <;>
    cases perEntityErrors <;> decide

/-! ## C6 -/

/-- C6: a full pass replaces the snapshot cache outright with the fetched
data; an incremental pass upserts by id — every id present in the delta maps
to the delta's entity, and every id absent from the delta keeps its previous
cache entry unchanged. -/
theorem updateApiCache_spec {α : Type} (getId : α → String)
    (cache fetched : List α) (hf : (fetched.map getId).Nodup)
    (hc : (cache.map getId).Nodup) :
    updateApiCache getId true cache fetched = fetched ∧
    (∀ e ∈ fetched,
      findById getId (updateApiCache getId false cache fetched) (getId e) =
        some e) ∧
    (∀ id, id ∉ fetched.map getId →
      findById getId (updateApiCache getId false cache fetched) id =
        findById getId cache id) := by
  refine ⟨rfl, ?_, ?_⟩
  · intro e he
    have hlen : 0 < fetched.length :=
      List.length_pos.mpr (by rintro rfl; cases he)
    unfold updateApiCache
    simp only [if_neg (Bool.false_ne_true), Bool.false_eq_true, if_false,
      if_pos hlen]
    exact mergeById_mem getId cache fetched e hf he
  · intro id hid
    unfold updateApiCache
    by_cases hlen : 0 < fetched.length
    · simp only [Bool.false_eq_true, if_false, if_pos hlen]
      exact mergeById_not_mem getId cache fetched id hc hid
    · simp only [Bool.false_eq_true, if_false, if_neg hlen]

/-- A sample active project. -/
def sampleProjectA : Project := ⟨"a", "A", false, false⟩

/-- A second sample active project. -/
def sampleProjectB : Project := ⟨"b", "B", false, false⟩

/-- C6 witness: concrete one-element cache and delta. -/
theorem updateApiCache_spec_witness :
    updateApiCache Project.id true [sampleProjectA] [sampleProjectB] =
      [sampleProjectB] ∧
    (∀ e ∈ [sampleProjectB],
      findById Project.id
        (updateApiCache Project.id false [sampleProjectA] [sampleProjectB])
        (Project.id e) = some e) ∧
    (∀ id, id ∉ [sampleProjectB].map Project.id →
      findById Project.id
        (updateApiCache Project.id false [sampleProjectA] [sampleProjectB]) id =
        findById Project.id [sampleProjectA] id) :=
  updateApiCache_spec Project.id [sampleProjectA] [sampleProjectB]
    (by decide) (by decide)

/-! ## C7 -/

theorem string_append_assoc (a b c : String) :
    (a ++ b) ++ c = a ++ (b ++ c) := by
  apply String.ext
  simp [String.data_append, List.append_assoc]

theorem string_append_slash_ne_empty (a b : String) :
    (a ++ "/") ++ b ≠ "" := by
  intro h
  have hd := congrArg String.data h
  simp [String.data_append] at hd

theorem mapGet_cascadeRenameCache (oldPath newPath : String)
    (cache : List (String × String)) (k : String) :
    mapGet (cascadeRenameCache oldPath newPath cache) k =
      (mapGet cache k).map fun p =>
        if p ≠ "" ∧ jsStartsWith p (oldPath ++ "/") then
          jsReplaceFirst p oldPath newPath
        else p := by
  induction cache with
  | nil => simp [cascadeRenameCache]
  | cons e t ih =>
    obtain ⟨k0, v⟩ := e
    by_cases hc : v ≠ "" ∧ jsStartsWith v (oldPath ++ "/") <;>
      by_cases h : k0 = k <;>
      simp [cascadeRenameCache, hc, h] <;>
      simpa [cascadeRenameCache] using ih

/-- C7: when a project's folder path changes, the rename cascade rewrites
exactly the section and task Identity-Index entries whose cached path lies
under the old folder path (the old prefix replaced by the new folder path),
keeps every other entry as it is, leaves the project cache untouched and
modifies no vault object. -/
theorem projectRenameCascade_spec (oldPath newPath : String) (st : SyncState)
    (hne : oldPath ≠ newPath) :
    ((projectRenameCascade oldPath newPath st).vault = st.vault) ∧
    ((projectRenameCascade oldPath newPath st).projectFileCache =
       st.projectFileCache) ∧
    (∀ id rest, mapGet st.sectionFileCache id = some (oldPath ++ "/" ++ rest) →
      mapGet (projectRenameCascade oldPath newPath st).sectionFileCache id =
        some (newPath ++ "/" ++ rest)) ∧
    (∀ id rest, mapGet st.taskFileCache id = some (oldPath ++ "/" ++ rest) →
      mapGet (projectRenameCascade oldPath newPath st).taskFileCache id =
        some (newPath ++ "/" ++ rest)) ∧
    (∀ id p, mapGet st.sectionFileCache id = some p →
      jsStartsWith p (oldPath ++ "/") = false →
      mapGet (projectRenameCascade oldPath newPath st).sectionFileCache id =
        some p) ∧
    (∀ id p, mapGet st.taskFileCache id = some p →
      jsStartsWith p (oldPath ++ "/") = false →
      mapGet (projectRenameCascade oldPath newPath st).taskFileCache id =
        some p) := by
  have hrw : ∀ rest : String,
      (if ((oldPath ++ "/") ++ rest) ≠ "" ∧
          jsStartsWith ((oldPath ++ "/") ++ rest) (oldPath ++ "/") then
        jsReplaceFirst ((oldPath ++ "/") ++ rest) oldPath newPath
      else ((oldPath ++ "/") ++ rest)) = (newPath ++ "/") ++ rest := by
    intro rest
    rw [if_pos ⟨string_append_slash_ne_empty oldPath rest,
      jsStartsWith_append (oldPath ++ "/") rest⟩]
    rw [string_append_assoc, jsReplaceFirst_append, ← string_append_assoc]
  have hkeep : ∀ p : String, jsStartsWith p (oldPath ++ "/") = false →
      (if p ≠ "" ∧ jsStartsWith p (oldPath ++ "/") then
        jsReplaceFirst p oldPath newPath
      else p) = p := by
    intro p hp
    rw [if_neg]
    rintro ⟨-, h2⟩
    rw [hp] at h2
    cases h2
  have hsec : (projectRenameCascade oldPath newPath st).sectionFileCache =
      cascadeRenameCache oldPath newPath st.sectionFileCache := by
    unfold projectRenameCascade
    rw [if_pos hne]
  have htask : (projectRenameCascade oldPath newPath st).taskFileCache =
      cascadeRenameCache oldPath newPath st.taskFileCache := by
    unfold projectRenameCascade
    rw [if_pos hne]
  have hvault : (projectRenameCascade oldPath newPath st).vault = st.vault := by
    unfold projectRenameCascade
    rw [if_pos hne]
  have hpc : (projectRenameCascade oldPath newPath st).projectFileCache =
      st.projectFileCache := by
    unfold projectRenameCascade
    rw [if_pos hne]
  refine ⟨hvault, hpc, ?_, ?_, ?_, ?_⟩
  · intro id rest hget
    rw [hsec, mapGet_cascadeRenameCache, hget, Option.map_some', hrw rest]
  · intro id rest hget
    rw [htask, mapGet_cascadeRenameCache, hget, Option.map_some', hrw rest]
  · intro id p hget hp
    rw [hsec, mapGet_cascadeRenameCache, hget, Option.map_some', hkeep p hp]
  · intro id p hget hp
    rw [htask, mapGet_cascadeRenameCache, hget, Option.map_some', hkeep p hp]

/-- A sample Identity-Index state for the cascade witness. -/
def sampleCascadeState : SyncState where
  vault := [("Todoist", .folder), ("Todoist/Old", .folder)]
  projectFileCache := [("p1", "Todoist/Old/Old.md")]
  sectionFileCache := [("s1", "Todoist/Old/Sec/Sec.md")]
  taskFileCache := [("t1", "Todoist/Old/T.md"), ("t2", "Todoist/Other/T2.md")]

/-- C7 witness: concrete rename from `Todoist/Old` to `Todoist/New`. -/
theorem projectRenameCascade_spec_witness :
    ((projectRenameCascade "Todoist/Old" "Todoist/New" sampleCascadeState).vault =
       sampleCascadeState.vault) ∧
    ((projectRenameCascade "Todoist/Old" "Todoist/New"
        sampleCascadeState).projectFileCache =
       sampleCascadeState.projectFileCache) ∧
    (∀ id rest,
      mapGet sampleCascadeState.sectionFileCache id =
          some ("Todoist/Old" ++ "/" ++ rest) →
      mapGet (projectRenameCascade "Todoist/Old" "Todoist/New"
          sampleCascadeState).sectionFileCache id =
        some ("Todoist/New" ++ "/" ++ rest)) ∧
    (∀ id rest,
      mapGet sampleCascadeState.taskFileCache id =
          some ("Todoist/Old" ++ "/" ++ rest) →
      mapGet (projectRenameCascade "Todoist/Old" "Todoist/New"
          sampleCascadeState).taskFileCache id =
        some ("Todoist/New" ++ "/" ++ rest)) ∧
    (∀ id p, mapGet sampleCascadeState.sectionFileCache id = some p →
      jsStartsWith p ("Todoist/Old" ++ "/") = false →
      mapGet (projectRenameCascade "Todoist/Old" "Todoist/New"
          sampleCascadeState).sectionFileCache id = some p) ∧
    (∀ id p, mapGet sampleCascadeState.taskFileCache id = some p →
      jsStartsWith p ("Todoist/Old" ++ "/") = false →
      mapGet (projectRenameCascade "Todoist/Old" "Todoist/New"
          sampleCascadeState).taskFileCache id = some p) :=
  projectRenameCascade_spec "Todoist/Old" "Todoist/New" sampleCascadeState
    (by decide)

/-! ## C10 -/

theorem handleMove_guard_cond (folderPath destinationParentPath : String)
    (hnorm : normalizePath folderPath = folderPath)
    (hcond : normalizePath (destinationParentPath ++ "/" ++
        lastComponent folderPath) = folderPath ∨
      ∃ rest, normalizePath (destinationParentPath ++ "/" ++
        lastComponent folderPath) = (folderPath ++ "/") ++ rest) :
    (jsStartsWith
        (normalizePath (destinationParentPath ++ "/" ++ lastComponent folderPath))
        (normalizePath (folderPath ++ "/")) ||
      (normalizePath (destinationParentPath ++ "/" ++ lastComponent folderPath) ==
        folderPath)) = true := by
  rcases hcond with heq | ⟨rest, hrest⟩
  · rw [heq]
    simp
  · rw [normalizePath_append_slash, hnorm, hrest, string_append_assoc,
      jsStartsWith_append]
    simp

theorem handleMove_folder_invalid (settings : TodoistSyncSettings) (v : Vault)
    (folderPath : String) (fileToMove : Option String) (destParent : String)
    (hc : (jsStartsWith
        (normalizePath (destParent ++ "/" ++ lastComponent folderPath))
        (normalizePath (folderPath ++ "/")) ||
      (normalizePath (destParent ++ "/" ++ lastComponent folderPath) ==
        folderPath)) = true) :
    handleMove settings v (some folderPath) fileToMove destParent =
      (if folderPath ≠ normalizePath settings.baseFolder then
        (trashSubtree folderPath
          (if (vaultGet v destParent).isSome then v
           else mapSet v destParent .folder),
         .trashedFolderInvalidMove folderPath)
      else
        ((if (vaultGet v destParent).isSome then v
          else mapSet v destParent .folder),
         .abortedBaseFolder)) := by
  unfold handleMove
  simp only [hc, if_true]

/-- C10: when the computed destination of a folder move equals the moved
folder's own path or lies strictly inside it, `handleMove` performs no
rename: the folder is sent to the system trash instead, unless it is the
configured base folder, in which case the move is aborted — within this
branch the base folder is neither moved nor trashed (only the destination
folder may have been created). -/
theorem handleMove_invalid_destination_guard (settings : TodoistSyncSettings)
    (v : Vault) (folderPath : String) (fileToMove : Option String)
    (destinationParentPath : String)
    (hnorm : normalizePath folderPath = folderPath)
    (hcond : normalizePath (destinationParentPath ++ "/" ++
        lastComponent folderPath) = folderPath ∨
      ∃ rest, normalizePath (destinationParentPath ++ "/" ++
        lastComponent folderPath) = (folderPath ++ "/") ++ rest) :
    (∀ src dest,
      (handleMove settings v (some folderPath) fileToMove
        destinationParentPath).2 ≠ .movedFolder src dest) ∧
    (∀ src dest,
      (handleMove settings v (some folderPath) fileToMove
        destinationParentPath).2 ≠ .movedFile src dest) ∧
    (folderPath ≠ normalizePath settings.baseFolder →
      handleMove settings v (some folderPath) fileToMove destinationParentPath =
        (trashSubtree folderPath
          (if (vaultGet v destinationParentPath).isSome then v
           else mapSet v destinationParentPath .folder),
         .trashedFolderInvalidMove folderPath)) ∧
    (folderPath = normalizePath settings.baseFolder →
      handleMove settings v (some folderPath) fileToMove destinationParentPath =
        ((if (vaultGet v destinationParentPath).isSome then v
          else mapSet v destinationParentPath .folder),
         .abortedBaseFolder)) := by
  have hc := handleMove_guard_cond folderPath destinationParentPath hnorm hcond
  have hq := handleMove_folder_invalid settings v folderPath fileToMove
    destinationParentPath hc
  by_cases hb : folderPath = normalizePath settings.baseFolder
  · rw [hq, if_neg (by simpa using hb)]
    exact ⟨fun _ _ => by simp, fun _ _ => by simp, fun h => absurd hb h,
      fun _ => rfl⟩
  · rw [hq, if_pos hb]
    exact ⟨fun _ _ => by simp, fun _ _ => by simp, fun _ => rfl,
      fun h => absurd h hb⟩

/-- C10 witness: trying to relocate the base folder `Todoist` into its own
`Todoist/Trash` subfolder is aborted. -/
theorem handleMove_invalid_destination_guard_witness :
    (∀ src dest,
      (handleMove ⟨"k", "Todoist", "Archive", "Trash", "Done"⟩
        [("Todoist", .folder)] (some "Todoist") none "Todoist/Trash").2 ≠
        .movedFolder src dest) ∧
    (∀ src dest,
      (handleMove ⟨"k", "Todoist", "Archive", "Trash", "Done"⟩
        [("Todoist", .folder)] (some "Todoist") none "Todoist/Trash").2 ≠
        .movedFile src dest) ∧
    ("Todoist" ≠ normalizePath (⟨"k", "Todoist", "Archive", "Trash", "Done"⟩ :
        TodoistSyncSettings).baseFolder →
      handleMove ⟨"k", "Todoist", "Archive", "Trash", "Done"⟩
        [("Todoist", .folder)] (some "Todoist") none "Todoist/Trash" =
        (trashSubtree "Todoist"
          (if (vaultGet [("Todoist", .folder)] "Todoist/Trash").isSome then
            [("Todoist", .folder)]
           else mapSet [("Todoist", .folder)] "Todoist/Trash" .folder),
         .trashedFolderInvalidMove "Todoist")) ∧
    ("Todoist" = normalizePath (⟨"k", "Todoist", "Archive", "Trash", "Done"⟩ :
        TodoistSyncSettings).baseFolder →
      handleMove ⟨"k", "Todoist", "Archive", "Trash", "Done"⟩
        [("Todoist", .folder)] (some "Todoist") none "Todoist/Trash" =
        ((if (vaultGet [("Todoist", .folder)] "Todoist/Trash").isSome then
            [("Todoist", .folder)]
          else mapSet [("Todoist", .folder)] "Todoist/Trash" .folder),
         .abortedBaseFolder)) :=
  handleMove_invalid_destination_guard ⟨"k", "Todoist", "Archive", "Trash", "Done"⟩
    [("Todoist", .folder)] "Todoist" none "Todoist/Trash" (by decide)
    (Or.inr ⟨"Trash/Todoist", by decide⟩)

/-! ## C4 -/

theorem mapGet_isSome_keys {α : Type} (m : List (String × α)) (k : String)
    (h : (mapGet m k).isSome) : k ∈ m.map Prod.fst := by
  induction m with
  | nil => simp at h
  | cons e t ih =>
    obtain ⟨k0, v⟩ := e
    by_cases h0 : k0 = k
    · simp [h0]
    · simp only [mapGet_cons, if_neg h0] at h
      simp [ih h]

theorem mapSet_keys_of_mem {α : Type} (m : List (String × α)) (k : String)
    (v : α) (h : (mapGet m k).isSome) :
    (mapSet m k v).map Prod.fst = m.map Prod.fst := by
  induction m with
  | nil => simp at h
  | cons e t ih =>
    obtain ⟨k0, w⟩ := e
    by_cases h0 : k0 = k
    · simp [mapSet, h0]
    · simp only [mapGet_cons, if_neg h0] at h
      simp [mapSet, h0, ih h]

/-- C4: enqueuing a second intent for an entity id that is already pending
leaves exactly one pending command under that id, chosen by precedence:
`item_complete` overwrites a pending `item_update` or `item_uncomplete`;
`item_uncomplete` overwrites a pending `item_update`; two `item_update`s
merge by object spread, the newer command's fields winning on overlap and
fields set only by the earlier command persisting. -/
theorem queueTodoistCommand_precedence
    (pending : List (String × TodoistCommand)) (c1 c2 : TodoistCommand)
    (hnd : (pending.map Prod.fst).Nodup)
    (hkey : commandKey c2 = commandKey c1)
    (hpend : mapGet pending (commandKey c1) = some c1) :
    ((queueTodoistCommand pending c2).map Prod.fst).count (commandKey c1) = 1 ∧
    (c1.type = "item_update" → c2.type = "item_update" →
      mapGet (queueTodoistCommand pending c2) (commandKey c1) =
        some { c1 with args := spreadArgs c1.args c2.args }) ∧
    (c2.type = "item_complete" →
      (c1.type = "item_update" ∨ c1.type = "item_uncomplete") →
      mapGet (queueTodoistCommand pending c2) (commandKey c1) = some c2) ∧
    (c2.type = "item_uncomplete" → c1.type = "item_update" →
      mapGet (queueTodoistCommand pending c2) (commandKey c1) = some c2) ∧
    (∀ x, c2.args.content = some x →
      (spreadArgs c1.args c2.args).content = some x) ∧
    (c2.args.content = none →
      (spreadArgs c1.args c2.args).content = c1.args.content) ∧
    (∀ x, c2.args.due_string = some x →
      (spreadArgs c1.args c2.args).due_string = some x) ∧
    (c2.args.due_string = none →
      (spreadArgs c1.args c2.args).due_string = c1.args.due_string) := by
  have hq : queueTodoistCommand pending c2 =
      (if c1.type = "item_update" ∧ c2.type = "item_update" then
        mapSet pending (commandKey c1)
          { c1 with args := spreadArgs c1.args c2.args }
      else mapSet pending (commandKey c1) c2) := by
    unfold queueTodoistCommand
    dsimp only
    rw [hkey, hpend]
    show (if c1.type = "item_update" ∧ c2.type = "item_update" then
        mapSet pending (commandKey c1)
          { c1 with args := spreadArgs c1.args c2.args }
      else
        if c2.type = "item_complete" ∧
            (c1.type = "item_update" ∨ c1.type = "item_uncomplete") then
          mapSet pending (commandKey c1) c2
        else
          if c2.type = "item_uncomplete" ∧ c1.type = "item_update" then
            mapSet pending (commandKey c1) c2
          else mapSet pending (commandKey c1) c2) = _
    split_ifs <;> rfl
  have hcount : ∀ x : TodoistCommand,
      ((mapSet pending (commandKey c1) x).map Prod.fst).count (commandKey c1) = 1 := by
    intro x
    rw [mapSet_keys_of_mem pending (commandKey c1) x (by rw [hpend]; rfl)]
    exact List.count_eq_one_of_mem hnd
      (mapGet_isSome_keys pending (commandKey c1) (by rw [hpend]; rfl))
  refine ⟨?_, ?_, ?_, ?_, ?_, ?_, ?_, ?_⟩
  · rw [hq]
    by_cases h1 : c1.type = "item_update" ∧ c2.type = "item_update"
    · rw [if_pos h1]
      exact hcount _
    · rw [if_neg h1]
      exact hcount _
  · intro ha hb
    rw [hq, if_pos ⟨ha, hb⟩]
    exact mapGet_mapSet_self _ _ _
  · intro ha hb
    have h1 : ¬ (c1.type = "item_update" ∧ c2.type = "item_update") := by
      rintro ⟨-, h2⟩
      rw [ha] at h2
      exact absurd h2 (by decide)
    rw [hq, if_neg h1]
    exact mapGet_mapSet_self _ _ _
  · intro ha hb
    have h1 : ¬ (c1.type = "item_update" ∧ c2.type = "item_update") := by
      rintro ⟨-, h2⟩
      rw [ha] at h2
      exact absurd h2 (by decide)
    rw [hq, if_neg h1]
    exact mapGet_mapSet_self _ _ _
  · intro x hx
    simp [spreadArgs, hx]
  · intro hx
    simp [spreadArgs, hx]
  · intro x hx
    simp [spreadArgs, hx]
  · intro hx
    simp [spreadArgs, hx]

/-- A pending update command used by the C4 witness. -/
def samplePendingUpdate : TodoistCommand :=
  { type := "item_update", uuid := "u1", temp_id := none,
    args := { CmdArgs.empty with
                id := some "1"
                content := some "old content"
                priority := some 2 } }

/-- A newer update command used by the C4 witness. -/
def sampleNewerUpdate : TodoistCommand :=
  { type := "item_update", uuid := "u2", temp_id := none,
    args := { CmdArgs.empty with
                id := some "1"
                description := some "new description" } }

/-- C4 witness: two updates for id "1" in one window merge into one pending
command. -/
theorem queueTodoistCommand_precedence_witness :
    (((queueTodoistCommand [("1", samplePendingUpdate)] sampleNewerUpdate).map
        Prod.fst).count (commandKey samplePendingUpdate) = 1) ∧
    (samplePendingUpdate.type = "item_update" →
      sampleNewerUpdate.type = "item_update" →
      mapGet (queueTodoistCommand [("1", samplePendingUpdate)] sampleNewerUpdate)
          (commandKey samplePendingUpdate) =
        some { samplePendingUpdate with
                args := spreadArgs samplePendingUpdate.args sampleNewerUpdate.args }) ∧
    (sampleNewerUpdate.type = "item_complete" →
      (samplePendingUpdate.type = "item_update" ∨
        samplePendingUpdate.type = "item_uncomplete") →
      mapGet (queueTodoistCommand [("1", samplePendingUpdate)] sampleNewerUpdate)
          (commandKey samplePendingUpdate) = some sampleNewerUpdate) ∧
    (sampleNewerUpdate.type = "item_uncomplete" →
      samplePendingUpdate.type = "item_update" →
      mapGet (queueTodoistCommand [("1", samplePendingUpdate)] sampleNewerUpdate)
          (commandKey samplePendingUpdate) = some sampleNewerUpdate) ∧
    (∀ x, sampleNewerUpdate.args.content = some x →
      (spreadArgs samplePendingUpdate.args sampleNewerUpdate.args).content =
        some x) ∧
    (sampleNewerUpdate.args.content = none →
      (spreadArgs samplePendingUpdate.args sampleNewerUpdate.args).content =
        samplePendingUpdate.args.content) ∧
    (∀ x, sampleNewerUpdate.args.due_string = some x →
      (spreadArgs samplePendingUpdate.args sampleNewerUpdate.args).due_string =
        some x) ∧
    (sampleNewerUpdate.args.due_string = none →
      (spreadArgs samplePendingUpdate.args sampleNewerUpdate.args).due_string =
        samplePendingUpdate.args.due_string) :=
  queueTodoistCommand_precedence [("1", samplePendingUpdate)]
    samplePendingUpdate sampleNewerUpdate (by decide) (by decide) (by decide)

/-! ## C9 -/

/-- A `some` value of `priorityField` always lies in the valid range 1-4:
the source rejects out-of-range priorities with a warning instead of
sending them. -/
theorem priorityField_range (cachedTask : Item)
    (newFrontmatter : TaskFrontmatter) (p : Int)
    (h : priorityField cachedTask newFrontmatter = some p) :
    1 ≤ p ∧ p ≤ 4 := by
  unfold priorityField at h
  split at h
  · split at h
    · split at h
      · injection h with h
        subst h
        assumption
      · exact absurd h (by simp)
    · exact absurd h (by simp)
  · exact absurd h (by simp)

/-- C9: one metadata-change notification emits at most one command.  A
`complete` intent is emitted exactly when the frontmatter says completed
while the cache says not completed; an `uncomplete` intent exactly when
the complete condition fails, the frontmatter says explicitly
not-completed and the cache says completed; an emitted `update` intent
carries exactly the four differing tracked fields (content, description,
priority, due-string) merged into its single argument object, and any
priority it carries lies in the valid range 1-4. -/
theorem handleMetadataChange_spec (cachedTask : Item)
    (newFrontmatter : TaskFrontmatter) (basename now uuid : String) :
    (handleMetadataChange cachedTask newFrontmatter basename now uuid).length ≤ 1 ∧
    ((∃ c ∈ handleMetadataChange cachedTask newFrontmatter basename now uuid,
        c.type = "item_complete") ↔
      newFrontmatter.completed = some true ∧ cachedTask.is_completed = false) ∧
    ((∃ c ∈ handleMetadataChange cachedTask newFrontmatter basename now uuid,
        c.type = "item_uncomplete") ↔
      ¬ (newFrontmatter.completed = some true ∧
          cachedTask.is_completed = false) ∧
        newFrontmatter.completed = some false ∧
        cachedTask.is_completed = true) ∧
    (∀ c ∈ handleMetadataChange cachedTask newFrontmatter basename now uuid,
      c.type = "item_update" →
        c.args.id = some cachedTask.id ∧
        c.args.content = contentField cachedTask newFrontmatter basename ∧
        c.args.description = descriptionField cachedTask newFrontmatter ∧
        c.args.priority = priorityField cachedTask newFrontmatter ∧
        c.args.due_string = dueStringField cachedTask newFrontmatter ∧
        ∀ p, c.args.priority = some p → 1 ≤ p ∧ p ≤ 4) := by
  unfold handleMetadataChange
  dsimp only
  by_cases h1 : newFrontmatter.completed = some true ∧ ¬ cachedTask.is_completed
  · rw [if_pos h1]
    refine ⟨by simp, ?_, ?_, ?_⟩
    · simp only [List.mem_singleton]
      constructor
      · intro _
        exact ⟨h1.1, by simpa using h1.2⟩
      · intro _
        exact ⟨{ type := "item_complete", uuid := uuid, temp_id := none,
                 args := { CmdArgs.empty with
                             id := some cachedTask.id
                             completed_at := some now } }, rfl, rfl⟩
    · simp only [List.mem_singleton]
      constructor
      · rintro ⟨c, rfl, hc⟩
        exact absurd hc (by simp)
      · rintro ⟨hn, _, _⟩
        exact absurd ⟨h1.1, by simpa using h1.2⟩ hn
    · intro c hc
      simp only [List.mem_singleton] at hc
      subst hc
      intro ht
      exact absurd ht (by simp)
  · rw [if_neg h1]
    by_cases h2 : ¬ (newFrontmatter.completed = some true) ∧
        cachedTask.is_completed ∧ newFrontmatter.completed = some false
    · rw [if_pos h2]
      refine ⟨by simp, ?_, ?_, ?_⟩
      · simp only [List.mem_singleton]
        constructor
        · rintro ⟨c, rfl, hc⟩
          exact absurd hc (by simp)
        · rintro ⟨hq, _⟩
          exact absurd hq h2.1
      · simp only [List.mem_singleton]
        constructor
        · intro _
          refine ⟨fun hcon => absurd hcon.1 h2.1, h2.2.2, by simpa using h2.2.1⟩
        · intro _
          exact ⟨{ type := "item_uncomplete", uuid := uuid, temp_id := none,
                   args := { CmdArgs.empty with id := some cachedTask.id } },
                 rfl, rfl⟩
      · intro c hc
        simp only [List.mem_singleton] at hc
        subst hc
        intro ht
        exact absurd ht (by simp)
    · rw [if_neg h2]
      have hnc : ¬ (newFrontmatter.completed = some true ∧
          cachedTask.is_completed = false) := by
        intro hcon
        exact h1 ⟨hcon.1, by simp [hcon.2]⟩
      have hnu : ¬ (¬ (newFrontmatter.completed = some true ∧
            cachedTask.is_completed = false) ∧
          newFrontmatter.completed = some false ∧
          cachedTask.is_completed = true) := by
        rintro ⟨_, hf, hw⟩
        exact h2 ⟨by simp [hf], by simp [hw], hf⟩
      by_cases h3 : (contentField cachedTask newFrontmatter basename).isSome ∨
          (descriptionField cachedTask newFrontmatter).isSome ∨
          (priorityField cachedTask newFrontmatter).isSome ∨
          (dueStringField cachedTask newFrontmatter).isSome
      · rw [if_pos h3]
        refine ⟨by simp, ?_, ?_, ?_⟩
        · simp only [List.mem_singleton]
          constructor
          · rintro ⟨c, rfl, hc⟩
            exact absurd hc (by simp)
          · intro hcon
            exact absurd hcon hnc
        · simp only [List.mem_singleton]
          constructor
          · rintro ⟨c, rfl, hc⟩
            exact absurd hc (by simp)
          · intro hcon
            exact absurd hcon hnu
        · intro c hc
          simp only [List.mem_singleton] at hc
          subst hc
          intro _
          exact ⟨rfl, rfl, rfl, rfl, rfl,
                 fun p hp => priorityField_range cachedTask newFrontmatter p hp⟩
      · rw [if_neg h3]
        refine ⟨by simp, ?_, ?_, ?_⟩
        · constructor
          · rintro ⟨c, hc, _⟩
            exact absurd hc (List.not_mem_nil c)
          · intro hcon
            exact absurd hcon hnc
        · constructor
          · rintro ⟨c, hc, _⟩
            exact absurd hc (List.not_mem_nil c)
          · intro hcon
            exact absurd hcon hnu
        · intro c hc
          exact absurd hc (List.not_mem_nil c)

/-! ## C2 -/

/-- Settings with the default folder names, for the C2 batch. -/
def c2Settings : TodoistSyncSettings :=
  { apiKey := "k"
    baseFolder := "Todoist"
    archiveFolder := "Archive"
    trashFolder := "Trash"
    doneFolder := "Done" }

/-- The cached snapshot entry of the task being completed. -/
def c2Task : Item :=
  { id := "1"
    content := "T1"
    description := ""
    project_id := "p1"
    section_id := none
    priority := 1
    due := none
    labels := []
    url := ""
    parent_id := none
    is_completed := false
    completed_at := none
    created_at := ""
    is_deleted := false }

/-- Command-manager state before the batch: the task document sits at
`Todoist/P/T1.md`, indexed and cached. -/
def c2State : CmdMgrState :=
  { vault := [("Todoist", .folder), ("Todoist/P", .folder),
              ("Todoist/P/T1.md", .file false)]
    taskFileCache := [("1", "Todoist/P/T1.md")]
    cachedTasks := [c2Task] }

/-- The drained batch: one `item_complete` for task 1. -/
def c2Command : TodoistCommand :=
  { type := "item_complete"
    uuid := "u1"
    temp_id := none
    args := { CmdArgs.empty with
                id := some "1"
                completed_at := some "2024-01-01T00:00:00Z" } }

/-- C2 (code bug): a transport-level failure — `postTodoistCommands` threw,
so `apiResult` is `none` and no per-command statuses exist — still mutates
local state.  The post-API file-operation loop of `processPendingCommands`
runs unconditionally after the `try`/`catch`, so the queued
`item_complete`'s document is moved into the Done folder with its
frontmatter rewritten to `completed: true`, while the snapshot cache and
the task file cache keep the old data.  The claimed no-mutation guarantee
fails on this batch. -/
theorem processPendingCommands_transport_failure_mutates :
    vaultGet (processPendingCommands c2Settings c2State [c2Command] none
        "2024-01-01T00:00:00Z").vault "Todoist/Done/T1.md" =
      some (VNode.file true) ∧
    vaultGet (processPendingCommands c2Settings c2State [c2Command] none
        "2024-01-01T00:00:00Z").vault "Todoist/P/T1.md" = none ∧
    (processPendingCommands c2Settings c2State [c2Command] none
        "2024-01-01T00:00:00Z").taskFileCache = c2State.taskFileCache ∧
    (processPendingCommands c2Settings c2State [c2Command] none
        "2024-01-01T00:00:00Z").cachedTasks = c2State.cachedTasks := by
  decide

/-! ## C8 -/

/-- Settings with the default folder names, for the C8 collision scenario. -/
def c8Settings : TodoistSyncSettings :=
  { apiKey := "k"
    baseFolder := "Todoist"
    archiveFolder := "Archive"
    trashFolder := "Trash"
    doneFolder := "Done" }

/-- The parent project of the two colliding tasks. -/
def c8Project : Project :=
  { id := "p1", name := "P", is_deleted := false, is_archived := false }

/-- First task whose content sanitizes to `My_Task`. -/
def c8Task1 : Item :=
  { id := "1"
    content := "My_Task"
    description := ""
    project_id := "p1"
    section_id := none
    priority := 1
    due := none
    labels := []
    url := ""
    parent_id := none
    is_completed := false
    completed_at := none
    created_at := ""
    is_deleted := false }

/-- Second task, a different id with the same sanitized content. -/
def c8Task2 : Item :=
  { c8Task1 with id := "2" }

/-- State after the first colliding task was created: its document occupies
the canonical path `Todoist/P/My_Task.md`. -/
def c8CollisionState : SyncState :=
  { vault := [("Todoist", .folder), ("Todoist/P", .folder),
              ("Todoist/P/My_Task.md", .file false)]
    projectFileCache := []
    sectionFileCache := []
    taskFileCache := [("1", "Todoist/P/My_Task.md")] }

/-- C8 (counterexample): processing two active tasks whose names sanitize to
the same `My_Task` under one project creates no numerically disambiguated
document.  After the full pass both ids are indexed at the same path
`Todoist/P/My_Task.md` — the second id is not independently resolvable —
and no `Todoist/P/My_Task_1.md` exists. -/
theorem taskCreation_collision_no_disambiguation :
    (fullSyncProcessPhase c8Settings
        { projects := [c8Project], sections := [], tasks := [c8Task1, c8Task2] }
        { vault := [], projectFileCache := [], sectionFileCache := [],
          taskFileCache := [] }).taskFileCache =
      [("1", "Todoist/P/My_Task.md"), ("2", "Todoist/P/My_Task.md")] ∧
    vaultGet (fullSyncProcessPhase c8Settings
        { projects := [c8Project], sections := [], tasks := [c8Task1, c8Task2] }
        { vault := [], projectFileCache := [], sectionFileCache := [],
          taskFileCache := [] }).vault "Todoist/P/My_Task_1.md" = none := by
  decide

/-- One step of the conflict-name loop: an occupied candidate advances to
the next numeric suffix. -/
theorem firstFreeCandidate_step (v : Vault) (parent name : String)
    (k fuel : Nat)
    (hocc : (vaultGet v (conflictCandidate parent name k)).isSome = true) :
    firstFreeCandidate v parent name k (fuel + 1) =
      firstFreeCandidate v parent name (k + 1) fuel := by
  conv_lhs => unfold firstFreeCandidate
  rw [if_pos hocc]

/-- The conflict-name loop stops at the first free candidate. -/
theorem firstFreeCandidate_free (v : Vault) (parent name : String)
    (k fuel : Nat)
    (hfree : vaultGet v (conflictCandidate parent name k) = none) :
    firstFreeCandidate v parent name k (fuel + 1) =
      some (conflictCandidate parent name k) := by
  unfold firstFreeCandidate
  rw [if_neg (by simp [hfree])]

/-- C8 (amended): creation does not disambiguate, moves do.  A task whose
canonical path is already occupied by a file (and whose id has no cached
path) is not created under a suffixed name: the task loop adopts the
existing file and indexes the id at that same occupied path.  The numeric
disambiguator exists only in the conflict loop of
`moveFileToCustomLocation` / `trashOrArchiveFileById`: when candidate 0
(`parent/name`) is occupied and candidate 1 (`parent/base_1.ext`) is free,
a move resolves to candidate 1. -/
theorem taskCreation_adopts_and_moves_disambiguate
    (settings : TodoistSyncSettings) (projectMap : List (String × Project))
    (sectionMap : List (String × Section)) (st : SyncState) (task : Item)
    (v : Vault) (parent name : String)
    (hnd : task.is_deleted = false) (hnc : task.completed_at = none)
    (hcache : mapGet st.taskFileCache task.id = none)
    (hocc : ∃ b, vaultGet st.vault
        (taskExpectedPath settings projectMap sectionMap task) =
      some (VNode.file b))
    (hv0 : (vaultGet v (conflictCandidate parent name 0)).isSome = true)
    (hv1 : (vaultGet v (conflictCandidate parent name 1)).isNone = true) :
    (processTaskFull settings projectMap sectionMap st task).taskFileCache =
      mapSet st.taskFileCache task.id
        (taskExpectedPath settings projectMap sectionMap task) ∧
    resolveMoveTarget v parent name = conflictCandidate parent name 1 := by
  constructor
  · obtain ⟨b, hb⟩ := hocc
    unfold processTaskFull
    simp only [hnd, hnc, hcache, hb, Option.bind_none, Option.isSome_none,
      Bool.false_eq_true, if_false, Option.map_some', ne_eq, not_true_eq_false]
  · have h0 : vaultGet v (conflictCandidate parent name 1) = none :=
      Option.isNone_iff_eq_none.mp hv1
    have hlen : 1 ≤ v.length := by
      rcases v with _ | ⟨a, t⟩
      · simp [vaultGet, mapGet] at hv0
      · simp
    obtain ⟨m, hm⟩ : ∃ m, v.length = m + 1 := ⟨v.length - 1, by omega⟩
    unfold resolveMoveTarget
    rw [hm, firstFreeCandidate_step v parent name 0 (m + 1) hv0,
        firstFreeCandidate_free v parent name (0 + 1) m h0]
    rfl

/-- C8 witness: the concrete collision state.  The second colliding task is
indexed at the occupied canonical path, and a move into `Todoist/P` of a
file named `My_Task.md` would resolve to `Todoist/P/My_Task_1.md`. -/
theorem taskCreation_adopts_witness :
    (processTaskFull c8Settings [("p1", c8Project)] [] c8CollisionState
        c8Task2).taskFileCache =
      mapSet c8CollisionState.taskFileCache c8Task2.id
        (taskExpectedPath c8Settings [("p1", c8Project)] [] c8Task2) ∧
    resolveMoveTarget c8CollisionState.vault "Todoist/P" "My_Task.md" =
      conflictCandidate "Todoist/P" "My_Task.md" 1 :=
  taskCreation_adopts_and_moves_disambiguate c8Settings [("p1", c8Project)]
    [] c8CollisionState c8Task2 c8CollisionState.vault "Todoist/P" "My_Task.md"
    rfl rfl (by decide) ⟨false, by decide⟩ (by decide) (by decide)

/-! ## C1 -/

/-- Settings with the default folder names, for the C1 scenarios. -/
def c1Settings : TodoistSyncSettings :=
  { apiKey := "k"
    baseFolder := "Todoist"
    archiveFolder := "Archive"
    trashFolder := "Trash"
    doneFolder := "Done" }

/-- An archived parent project. -/
def c1ProjectP : Project :=
  { id := "p1", name := "P", is_deleted := false, is_archived := true }

/-- An active (neither deleted nor archived) section of that project. -/
def c1SectionS : Section :=
  { id := "s1", name := "S", project_id := "p1", is_deleted := false,
    is_archived := false }

/-- The fetched payload of the C1 full pass. -/
def c1Fetched : FetchedData :=
  { projects := [c1ProjectP], sections := [c1SectionS], tasks := [] }

/-- An empty starting state for the C1 full pass. -/
def c1EmptyState : SyncState :=
  { vault := [], projectFileCache := [], sectionFileCache := [],
    taskFileCache := [] }

/-- A state holding one completed task document, for the dispatch witness. -/
def c1WitState : SyncState :=
  { vault := [("Todoist", .folder), ("Todoist/T.md", .file true)]
    projectFileCache := []
    sectionFileCache := []
    taskFileCache := [] }

/-- C1 (counterexample): after a full pass the Identity Index does not
contain every Active entity of the merged SnapshotCache.  The fetched data
holds an archived project and an Active section of it: the section is
present and Active in the merged cache (the fetched lists), yet the section
loop removed its id from the sectionFileCache because the parent project is
archived, so the claimed `iff` fails in the only-if direction. -/
theorem fullSyncPass_index_misses_active_section :
    (c1SectionS ∈ c1Fetched.sections ∧ c1SectionS.is_deleted = false ∧
      c1SectionS.is_archived = false) ∧
    mapGet (fullSyncPass c1Settings c1Fetched c1EmptyState).1.sectionFileCache
        c1SectionS.id = none := by
  decide

/-- The state component of the cleanup fold, without the action log. -/
def runCleanupState (settings : TodoistSyncSettings) :
    SyncState → List (String × String × String) → SyncState
  | st, [] => st
  | st, tgt :: ts =>
    runCleanupState settings
      (trashOrArchiveFileById settings st tgt.1 tgt.2.1 tgt.2.2).1 ts

/-- The cleanup fold's state ignores the accumulated action log. -/
theorem runCleanup_fst_aux (settings : TodoistSyncSettings)
    (ts : List (String × String × String)) :
    ∀ (st : SyncState) (l : List CleanupAction),
      (ts.foldl
        (fun acc tgt =>
          let r := trashOrArchiveFileById settings acc.1 tgt.1 tgt.2.1 tgt.2.2
          (r.1, acc.2 ++ [r.2])) (st, l)).1 = runCleanupState settings st ts := by
  induction ts with
  | nil => intro st l; rfl
  | cons hd tl ih => intro st l; exact ih _ _

/-- The state `runCleanup` produces. -/
theorem runCleanup_state (settings : TodoistSyncSettings) (st : SyncState)
    (ts : List (String × String × String)) :
    (runCleanup settings st ts).1 = runCleanupState settings st ts :=
  runCleanup_fst_aux settings ts st []

/-- Deleting one key never makes another key appear. -/
theorem mapGet_mapDelete_none {α : Type} (m : List (String × α))
    (k id : String) (h : mapGet m id = none) :
    mapGet (mapDelete m k) id = none := by
  by_cases hk : k = id
  · subst hk
    exact mapGet_mapDelete_self m k
  · rw [mapGet_mapDelete_ne m k id hk]
    exact h

/-- A successful lookup names an entry of the association list. -/
theorem mapGet_some_mem {α : Type} (m : List (String × α)) (k : String)
    (v : α) (h : mapGet m k = some v) : (k, v) ∈ m := by
  induction m with
  | nil => simp [mapGet] at h
  | cons e t ih =>
    obtain ⟨k0, w⟩ := e
    rw [mapGet_cons] at h
    by_cases h0 : k0 = k
    · rw [if_pos h0] at h
      injection h with h
      subst h0
      subst h
      exact List.mem_cons_self _ _
    · rw [if_neg h0] at h
      exact List.mem_cons_of_mem _ (ih h)

/-- A key absent from a list is not `contains`-found. -/
theorem contains_eq_false_of_not_mem (l : List String) (a : String)
    (h : a ∉ l) : l.contains a = false := by
  simpa using h

/-- The project-cache component of one cleanup call: deleted at the id for
kind `project`, untouched otherwise. -/
theorem trashOrArchive_projectFileCache (settings : TodoistSyncSettings)
    (st : SyncState) (id ty p : String) :
    (trashOrArchiveFileById settings st id ty p).1.projectFileCache =
      if ty = "project" then mapDelete st.projectFileCache id
      else st.projectFileCache := by
  unfold trashOrArchiveFileById
  dsimp only
  repeat' split
  all_goals first | rfl | simp_all

/-- The section-cache component of one cleanup call. -/
theorem trashOrArchive_sectionFileCache (settings : TodoistSyncSettings)
    (st : SyncState) (id ty p : String) :
    (trashOrArchiveFileById settings st id ty p).1.sectionFileCache =
      if ty = "section" then mapDelete st.sectionFileCache id
      else st.sectionFileCache := by
  unfold trashOrArchiveFileById
  dsimp only
  repeat' split
  all_goals first | rfl | simp_all

/-- The task-cache component of one cleanup call. -/
theorem trashOrArchive_taskFileCache (settings : TodoistSyncSettings)
    (st : SyncState) (id ty p : String) :
    (trashOrArchiveFileById settings st id ty p).1.taskFileCache =
      if ty = "task" then mapDelete st.taskFileCache id
      else st.taskFileCache := by
  unfold trashOrArchiveFileById
  dsimp only
  repeat' split
  all_goals first | rfl | simp_all

/-- A cache read through an accessor that each cleanup step either keeps or
deletes from stays empty at an absent key. -/
theorem runCleanupState_keeps_none (settings : TodoistSyncSettings)
    (f : SyncState → List (String × String))
    (hstep : ∀ (st : SyncState) (t ty p : String),
      f (trashOrArchiveFileById settings st t ty p).1 = f st ∨
      f (trashOrArchiveFileById settings st t ty p).1 = mapDelete (f st) t)
    (ts : List (String × String × String)) (st : SyncState) (id : String)
    (h : mapGet (f st) id = none) :
    mapGet (f (runCleanupState settings st ts)) id = none := by
  induction ts generalizing st with
  | nil => exact h
  | cons hd tl ih =>
    show mapGet (f (runCleanupState settings
      (trashOrArchiveFileById settings st hd.1 hd.2.1 hd.2.2).1 tl)) id = none
    apply ih
    rcases hstep st hd.1 hd.2.1 hd.2.2 with he | he <;> rw [he]
    · exact h
    · exact mapGet_mapDelete_none (f st) hd.1 id h

/-- Processing a queued cleanup target removes its id from its kind's
cache, and nothing later restores it. -/
theorem runCleanupState_removes (settings : TodoistSyncSettings)
    (f : SyncState → List (String × String))
    (hstep : ∀ (st : SyncState) (t ty p : String),
      f (trashOrArchiveFileById settings st t ty p).1 = f st ∨
      f (trashOrArchiveFileById settings st t ty p).1 = mapDelete (f st) t)
    (t ty p : String)
    (hdel : ∀ (st : SyncState),
      mapGet (f (trashOrArchiveFileById settings st t ty p).1) t = none)
    (ts : List (String × String × String)) (st : SyncState)
    (hmem : (t, ty, p) ∈ ts) :
    mapGet (f (runCleanupState settings st ts)) t = none := by
  induction ts generalizing st with
  | nil => cases hmem
  | cons hd tl ih =>
    rcases List.mem_cons.mp hmem with he | hm
    · show mapGet (f (runCleanupState settings
        (trashOrArchiveFileById settings st hd.1 hd.2.1 hd.2.2).1 tl)) t = none
      rw [← he]
      exact runCleanupState_keeps_none settings f hstep tl _ t (hdel st)
    · exact ih _ hm

/-- Stale project-cache entries are queued as cleanup targets. -/
theorem cleanupTargets_mem_project (st : SyncState) (fp fs ft : List String)
    (id p : String) (hmem : (id, p) ∈ st.projectFileCache)
    (hc : fp.contains id = false) :
    (id, "project", p) ∈ cleanupTargets st fp fs ft := by
  unfold cleanupTargets
  exact List.mem_append_left _ (List.mem_append_left _
    (List.mem_filterMap.mpr ⟨(id, p), hmem, by simp only [hc, Bool.false_eq_true, if_false]⟩))

/-- Stale section-cache entries are queued as cleanup targets. -/
theorem cleanupTargets_mem_section (st : SyncState) (fp fs ft : List String)
    (id p : String) (hmem : (id, p) ∈ st.sectionFileCache)
    (hc : fs.contains id = false) :
    (id, "section", p) ∈ cleanupTargets st fp fs ft := by
  unfold cleanupTargets
  exact List.mem_append_left _ (List.mem_append_right _
    (List.mem_filterMap.mpr ⟨(id, p), hmem, by simp only [hc, Bool.false_eq_true, if_false]⟩))

/-- Stale task-cache entries are queued as cleanup targets. -/
theorem cleanupTargets_mem_task (st : SyncState) (fp fs ft : List String)
    (id p : String) (hmem : (id, p) ∈ st.taskFileCache)
    (hc : ft.contains id = false) :
    (id, "task", p) ∈ cleanupTargets st fp fs ft := by
  unfold cleanupTargets
  exact List.mem_append_right _
    (List.mem_filterMap.mpr ⟨(id, p), hmem, by simp only [hc, Bool.false_eq_true, if_false]⟩)

/-- Each cleanup step keeps or deletes from the project cache. -/
theorem trashOrArchive_step_project (settings : TodoistSyncSettings) :
    ∀ (st : SyncState) (t ty p : String),
      (trashOrArchiveFileById settings st t ty p).1.projectFileCache =
          st.projectFileCache ∨
        (trashOrArchiveFileById settings st t ty p).1.projectFileCache =
          mapDelete st.projectFileCache t := by
  intro st t ty p
  rw [trashOrArchive_projectFileCache]
  by_cases h : ty = "project"
  · rw [if_pos h]
    exact Or.inr rfl
  · rw [if_neg h]
    exact Or.inl rfl

/-- Each cleanup step keeps or deletes from the section cache. -/
theorem trashOrArchive_step_section (settings : TodoistSyncSettings) :
    ∀ (st : SyncState) (t ty p : String),
      (trashOrArchiveFileById settings st t ty p).1.sectionFileCache =
          st.sectionFileCache ∨
        (trashOrArchiveFileById settings st t ty p).1.sectionFileCache =
          mapDelete st.sectionFileCache t := by
  intro st t ty p
  rw [trashOrArchive_sectionFileCache]
  by_cases h : ty = "section"
  · rw [if_pos h]
    exact Or.inr rfl
  · rw [if_neg h]
    exact Or.inl rfl

/-- Each cleanup step keeps or deletes from the task cache. -/
theorem trashOrArchive_step_task (settings : TodoistSyncSettings) :
    ∀ (st : SyncState) (t ty p : String),
      (trashOrArchiveFileById settings st t ty p).1.taskFileCache =
          st.taskFileCache ∨
        (trashOrArchiveFileById settings st t ty p).1.taskFileCache =
          mapDelete st.taskFileCache t := by
  intro st t ty p
  rw [trashOrArchive_taskFileCache]
  by_cases h : ty = "task"
  · rw [if_pos h]
    exact Or.inr rfl
  · rw [if_neg h]
    exact Or.inl rfl

/-- The full pass as processing phase plus the pure cleanup fold. -/
theorem fullSyncPass_fst (settings : TodoistSyncSettings)
    (fetched : FetchedData) (st0 : SyncState) :
    (fullSyncPass settings fetched st0).1 =
      runCleanupState settings (fullSyncProcessPhase settings fetched st0)
        (cleanupTargets (fullSyncProcessPhase settings fetched st0)
          (fetched.projects.map Project.id) (fetched.sections.map Section.id)
          (fetched.tasks.map Item.id)) := by
  unfold fullSyncPass
  exact runCleanup_state settings _ _

/-- Soundness of the project cache after a full pass. -/
theorem fullSyncPass_sound_project (settings : TodoistSyncSettings)
    (fetched : FetchedData) (st0 : SyncState) (id : String)
    (h : (mapGet (fullSyncPass settings fetched st0).1.projectFileCache
      id).isSome = true) :
    id ∈ fetched.projects.map Project.id := by
  by_contra hne
  have hc : (fetched.projects.map Project.id).contains id = false :=
    contains_eq_false_of_not_mem _ _ hne
  rw [fullSyncPass_fst] at h
  rcases hget : mapGet (fullSyncProcessPhase settings fetched
      st0).projectFileCache id with _ | p
  · rw [runCleanupState_keeps_none settings SyncState.projectFileCache
      (trashOrArchive_step_project settings) _ _ id hget] at h
    simp at h
  · have hmem := cleanupTargets_mem_project _ _
      (fetched.sections.map Section.id) (fetched.tasks.map Item.id) id p
      (mapGet_some_mem _ _ _ hget) hc
    rw [runCleanupState_removes settings SyncState.projectFileCache
      (trashOrArchive_step_project settings) id "project" p
      (fun st => by
        rw [trashOrArchive_projectFileCache, if_pos rfl]
        exact mapGet_mapDelete_self _ _) _ _ hmem] at h
    simp at h

/-- Soundness of the section cache after a full pass. -/
theorem fullSyncPass_sound_section (settings : TodoistSyncSettings)
    (fetched : FetchedData) (st0 : SyncState) (id : String)
    (h : (mapGet (fullSyncPass settings fetched st0).1.sectionFileCache
      id).isSome = true) :
    id ∈ fetched.sections.map Section.id := by
  by_contra hne
  have hc : (fetched.sections.map Section.id).contains id = false :=
    contains_eq_false_of_not_mem _ _ hne
  rw [fullSyncPass_fst] at h
  rcases hget : mapGet (fullSyncProcessPhase settings fetched
      st0).sectionFileCache id with _ | p
  · rw [runCleanupState_keeps_none settings SyncState.sectionFileCache
      (trashOrArchive_step_section settings) _ _ id hget] at h
    simp at h
  · have hmem := cleanupTargets_mem_section _
      (fetched.projects.map Project.id) _ (fetched.tasks.map Item.id) id p
      (mapGet_some_mem _ _ _ hget) hc
    rw [runCleanupState_removes settings SyncState.sectionFileCache
      (trashOrArchive_step_section settings) id "section" p
      (fun st => by
        rw [trashOrArchive_sectionFileCache, if_pos rfl]
        exact mapGet_mapDelete_self _ _) _ _ hmem] at h
    simp at h

/-- Soundness of the task cache after a full pass. -/
theorem fullSyncPass_sound_task (settings : TodoistSyncSettings)
    (fetched : FetchedData) (st0 : SyncState) (id : String)
    (h : (mapGet (fullSyncPass settings fetched st0).1.taskFileCache
      id).isSome = true) :
    id ∈ fetched.tasks.map Item.id := by
  by_contra hne
  have hc : (fetched.tasks.map Item.id).contains id = false :=
    contains_eq_false_of_not_mem _ _ hne
  rw [fullSyncPass_fst] at h
  rcases hget : mapGet (fullSyncProcessPhase settings fetched
      st0).taskFileCache id with _ | p
  · rw [runCleanupState_keeps_none settings SyncState.taskFileCache
      (trashOrArchive_step_task settings) _ _ id hget] at h
    simp at h
  · have hmem := cleanupTargets_mem_task _
      (fetched.projects.map Project.id) (fetched.sections.map Section.id) _
      id p (mapGet_some_mem _ _ _ hget) hc
    rw [runCleanupState_removes settings SyncState.taskFileCache
      (trashOrArchive_step_task settings) id "task" p
      (fun st => by
        rw [trashOrArchive_taskFileCache, if_pos rfl]
        exact mapGet_mapDelete_self _ _) _ _ hmem] at h
    simp at h

/-- C1 (amended): after a full pass the Identity Index is sound — every id
still indexed was among the fetched ids of its kind (soundness only: the
converse fails, see the counterexample) — and the cleanup dispatch is
per-kind: a swept file moves to Done exactly when it is a task whose local
`completed` frontmatter is true (under a conflict-free name in the Done
folder, which is created on demand); every other swept file is sent to the
trash. -/
theorem fullSyncPass_sound_and_cleanup_dispatch
    (settings : TodoistSyncSettings) (fetched : FetchedData) (st0 : SyncState)
    (id : String) (st : SyncState) (tid ty path : String) (b : Bool)
    (hfile : vaultGet st.vault path = some (VNode.file b)) :
    ((mapGet (fullSyncPass settings fetched st0).1.projectFileCache
        id).isSome = true → id ∈ fetched.projects.map Project.id) ∧
    ((mapGet (fullSyncPass settings fetched st0).1.sectionFileCache
        id).isSome = true → id ∈ fetched.sections.map Section.id) ∧
    ((mapGet (fullSyncPass settings fetched st0).1.taskFileCache
        id).isSome = true → id ∈ fetched.tasks.map Item.id) ∧
    (trashOrArchiveFileById settings st tid ty path).2 =
      (if ty = "task" ∧ b = true then
        CleanupAction.movedToDone tid path
          (resolveMoveTarget
            (if (vaultGet st.vault (normalizePath (settings.baseFolder ++
                "/" ++ settings.doneFolder))).isSome then st.vault
             else mapSet st.vault (normalizePath (settings.baseFolder ++
                "/" ++ settings.doneFolder)) VNode.folder)
            (normalizePath (settings.baseFolder ++ "/" ++ settings.doneFolder))
            (lastComponent path))
       else CleanupAction.trashedFile tid path) := by
  refine ⟨fullSyncPass_sound_project settings fetched st0 id,
    fullSyncPass_sound_section settings fetched st0 id,
    fullSyncPass_sound_task settings fetched st0 id, ?_⟩
  unfold trashOrArchiveFileById
  rw [hfile]
  dsimp only
  by_cases hc : ty = "task" ∧ b = true
  · rw [if_pos hc, if_pos hc]
  · rw [if_neg hc, if_neg hc]

/-- C1 witness: the soundness implications at the concrete C1 pass, and the
dispatch of a completed task file, which moves to `Todoist/Done`. -/
theorem fullSyncPass_sound_witness :
    ((mapGet (fullSyncPass c1Settings c1Fetched c1EmptyState).1.projectFileCache
        "s1").isSome = true → "s1" ∈ c1Fetched.projects.map Project.id) ∧
    ((mapGet (fullSyncPass c1Settings c1Fetched c1EmptyState).1.sectionFileCache
        "s1").isSome = true → "s1" ∈ c1Fetched.sections.map Section.id) ∧
    ((mapGet (fullSyncPass c1Settings c1Fetched c1EmptyState).1.taskFileCache
        "s1").isSome = true → "s1" ∈ c1Fetched.tasks.map Item.id) ∧
    (trashOrArchiveFileById c1Settings c1WitState "t1" "task"
        "Todoist/T.md").2 =
      (if "task" = "task" ∧ true = true then
        CleanupAction.movedToDone "t1" "Todoist/T.md"
          (resolveMoveTarget
            (if (vaultGet c1WitState.vault (normalizePath (c1Settings.baseFolder ++
                "/" ++ c1Settings.doneFolder))).isSome then c1WitState.vault
             else mapSet c1WitState.vault (normalizePath (c1Settings.baseFolder ++
                "/" ++ c1Settings.doneFolder)) VNode.folder)
            (normalizePath (c1Settings.baseFolder ++ "/" ++ c1Settings.doneFolder))
            (lastComponent "Todoist/T.md"))
       else CleanupAction.trashedFile "t1" "Todoist/T.md") :=
  fullSyncPass_sound_and_cleanup_dispatch c1Settings c1Fetched c1EmptyState
    "s1" c1WitState "t1" "task" "Todoist/T.md" true (by decide)

end TodoistSync
